import Mathlib

/-!
Verification of the neon-growth circuit-board simulation (`src/unnamed/part_000`,
second — current — version of the file, whose line numbers the claims cite).

The JavaScript source is shallowly embedded: numbers are modelled as exact
rationals (`ℚ`), JS objects used as string-keyed maps are modelled as
association lists over the canonical integer key `(Math.round x, Math.round y)`,
and every random draw is passed in explicitly as a parameter.  The one
systematic deviation from the source text: where the source compares
`Math.sqrt(d)` against a non-negative bound `t`, we compare `d` against `t^2`,
which is equivalent for `0 ≤ t` and keeps every definition executable.
-/

namespace NeonGrowth

/-- `Math.round` of JavaScript: round half toward `+∞`, i.e. `⌊q + 1/2⌋`. -/
def jsRound (q : ℚ) : ℤ := ⌊q + 1/2⌋

/-- Canonical cell key: the JS source builds the string
`Math.round(x) + ',' + Math.round(y)`; the pair of rounded integers is an
equivalent (injective image) representation. -/
abbrev Key := ℤ × ℤ

/-- `getHexKey(x, y)` of the source (`Car.prototype.getHexKey`,
`CircuitBoard.prototype.getHexKey`). -/
def getHexKey (x y : ℚ) : Key := (jsRound x, jsRound y)

/-! ### Association-list maps (model of JS object maps) -/

/-- Lookup in a JS-object-style map: first binding for the key. -/
def alookup {κ α : Type} [DecidableEq κ] (m : List (κ × α)) (k : κ) : Option α :=
  match m with
  | [] => none
  | (k', v) :: t => if k' = k then some v else alookup t k

/-- `obj[k] = v`: replace the binding in place if present, else append. -/
def aset {κ α : Type} [DecidableEq κ] (m : List (κ × α)) (k : κ) (v : α) : List (κ × α) :=
  match m with
  | [] => [(k, v)]
  | (k', v') :: t => if k' = k then (k, v) :: t else (k', v') :: aset t k v

/-- `delete obj[k]`: remove every binding of the key. -/
def aerase {κ α : Type} [DecidableEq κ] (m : List (κ × α)) (k : κ) : List (κ × α) :=
  m.filter (fun p => p.1 ≠ k)

/-- Delete a list of keys (the `keysToRemove` loops of the source). -/
def aeraseAll {κ α : Type} [DecidableEq κ] (m : List (κ × α)) (ks : List κ) : List (κ × α) :=
  ks.foldl (fun acc k => aerase acc k) m

theorem alookup_aset {κ α : Type} [DecidableEq κ] (m : List (κ × α)) (k k' : κ) (v : α) :
    alookup (aset m k v) k' = if k' = k then some v else alookup m k' := by
  induction m with
  | nil =>
    rcases eq_or_ne k' k with h | h
    · subst h; simp [aset, alookup]
    · simp [aset, alookup, h, Ne.symm h]
  | cons p t ih =>
    obtain ⟨k₀, v₀⟩ := p
    rcases eq_or_ne k₀ k with h₀ | h₀
    · subst h₀
      rcases eq_or_ne k' k₀ with h | h
      · subst h; simp [aset, alookup]
      · simp [aset, alookup, h, Ne.symm h]
    · rcases eq_or_ne k' k₀ with h | h
      · subst h
        simp [aset, alookup, h₀, Ne.symm h₀]
      · simp [aset, alookup, h₀, h, Ne.symm h, ih]

theorem alookup_aerase {κ α : Type} [DecidableEq κ] (m : List (κ × α)) (k k' : κ) :
    alookup (aerase m k) k' = if k' = k then none else alookup m k' := by
  induction m with
  | nil =>
    rcases eq_or_ne k' k with h | h <;> simp [aerase, alookup, h]
  | cons p t ih =>
    obtain ⟨k₀, v₀⟩ := p
    rcases eq_or_ne k₀ k with h₀ | h₀
    · subst h₀
      rcases eq_or_ne k' k₀ with h | h
      · subst h
        simpa [aerase, alookup] using ih
      · simpa [aerase, alookup, h, Ne.symm h] using ih
    · rcases eq_or_ne k' k₀ with h | h
      · subst h
        simp [aerase, alookup, h₀, Ne.symm h₀]
      · rw [show aerase ((k₀, v₀) :: t) k = (k₀, v₀) :: aerase t k from by
            simp [aerase, h₀]]
        simp [alookup, Ne.symm h, ih]

theorem alookup_aeraseAll {κ α : Type} [DecidableEq κ] (m : List (κ × α)) (ks : List κ) (k : κ) :
    alookup (aeraseAll m ks) k = if k ∈ ks then none else alookup m k := by
  induction ks generalizing m with
  | nil => simp [aeraseAll]
  | cons k₀ t ih =>
    have hstep : aeraseAll m (k₀ :: t) = aeraseAll (aerase m k₀) t := rfl
    rw [hstep, ih]
    by_cases h₀ : k = k₀
    · subst h₀
      by_cases ht : k ∈ t <;> simp [ht, alookup_aerase]
    · by_cases ht : k ∈ t <;> simp [ht, h₀, alookup_aerase]

/-! ### Hexagonal-grid geometry -/

/-- `rowHeight = hexSize * 0.866` (the source's literal, not `√3/2`). -/
def rowHeightOf (hexSize : ℚ) : ℚ := hexSize * (433/500)

/-- The six direction vectors of the `Car` constructor (`this.hexDirections`),
in source order: E, SE, SW, W, NW, NE. -/
def hexDirections (hexSize : ℚ) : List (ℚ × ℚ) :=
  [ (hexSize, 0),
    (hexSize / 2, rowHeightOf hexSize),
    (-(hexSize / 2), rowHeightOf hexSize),
    (-hexSize, 0),
    (-(hexSize / 2), -(rowHeightOf hexSize)),
    (hexSize / 2, -(rowHeightOf hexSize)) ]

/-- Nearest-lattice-point snapping: infer the row from `round(y / rowHeight)`,
the column given that row's offset, return the exact lattice point.  This
arithmetic appears verbatim in `tryDirection` (path samples), `executeMove`
and the PHASE 2 conflict snapping. -/
def snapPoint (hexSize x y : ℚ) : ℚ × ℚ :=
  let rh := rowHeightOf hexSize
  let row := jsRound (y / rh)
  let xOffset : ℚ := if row % 2 = 0 then 0 else hexSize / 2
  let col := jsRound ((x - xOffset) / hexSize)
  ((col : ℚ) * hexSize + xOffset, (row : ℚ) * rh)

/-- The canonical key of a move destination after snapping (used by
`executeMove` and PHASE 2 of `draw`). -/
def snappedKey (hexSize x y : ℚ) : Key :=
  getHexKey (snapPoint hexSize x y).1 (snapPoint hexSize x y).2

/-! ### Data model -/

inductive Strategy where
  | wallFollower
  | wanderer
  | explorer
  | spiral
deriving DecidableEq, Repr

inductive TurnDir where
  | left
  | right
deriving DecidableEq, Repr, Fintype

/-- The mutable `Car` object.  `distanceTraveled` deviates from the source in
one way: `executeMove` adds `Math.sqrt(dx² + dy²)`; we add `dx² + dy²` itself
(the squared step length) to stay inside `ℚ`.  No verified claim depends on
the metric's exact value — only on its non-negativity, which both share. -/
structure Car where
  x : ℚ
  y : ℚ
  hexSize : ℚ
  stuck : Bool := false
  id : Nat
  birthTime : ℚ
  hueOffset : ℚ := 0
  distanceTraveled : ℚ := 0
  cellsVisited : Nat := 0
  strategy : Strategy
  preferredTurnDirection : TurnDir
  previousDirection : Option Nat := none
  currentDirection : Nat
  prevX : ℚ := 0
  prevY : ℚ := 0
deriving DecidableEq, Repr

/-- One recorded trace segment (an element of `allLines`). -/
structure Seg where
  x1 : ℚ
  y1 : ℚ
  x2 : ℚ
  y2 : ℚ
  carId : Nat
  hueOffset : ℚ := 0
  birthTime : ℚ := 0
  timestamp : ℚ := 0
  segmentIndex : Nat := 0
deriving DecidableEq, Repr

/-- JS truthiness of `occupiedCells[key]`: present and non-zero. -/
def isOccupied (m : List (Key × Nat)) (k : Key) : Bool :=
  match alookup m k with
  | some n => n != 0
  | none => false

/-! ### Move legality (`Car.prototype.tryDirection`, `linesIntersect`) -/

/-- `Car.prototype.linesIntersect`: segments sharing an endpoint within 15% of
hex size never cross; near-parallel lines never cross; otherwise both
parametric interpolation parameters must lie strictly inside (0.05, 0.95). -/
def linesIntersect (hexSize x1 y1 x2 y2 x3 y3 x4 y4 : ℚ) : Bool :=
  let th := hexSize * (3/20)
  if (|x1 - x3| < th ∧ |y1 - y3| < th) ∨ (|x1 - x4| < th ∧ |y1 - y4| < th) ∨
     (|x2 - x3| < th ∧ |y2 - y3| < th) ∨ (|x2 - x4| < th ∧ |y2 - y4| < th) then
    false
  else
    let denom := (y4 - y3) * (x2 - x1) - (x4 - x3) * (y2 - y1)
    if |denom| < 1/10000 then
      false
    else
      let ua := ((x4 - x3) * (y1 - y3) - (y4 - y3) * (x1 - x3)) / denom
      let ub := ((x2 - x1) * (y1 - y3) - (y2 - y1) * (x1 - x3)) / denom
      decide (1/20 < ua ∧ ua < 19/20 ∧ 1/20 < ub ∧ ub < 19/20)

/-- Body of the path-sample loop in `tryDirection` (`numSteps = 3`, so the
interior samples are at fractions `step/3` for `step = 1, 2`).  The source
tests `Math.sqrt(dist²) < hexSize * 0.6`; we test
`dist² < (hexSize * 0.6)²`, equivalent for non-negative `hexSize * 0.6`. -/
def sampleBlocked (car : Car) (occ : List (Key × Nat)) (dx dy : ℚ) (step : ℕ) : Bool :=
  let checkX := car.x + dx * ((step : ℚ) / 3)
  let checkY := car.y + dy * ((step : ℚ) / 3)
  let g := snapPoint car.hexSize checkX checkY
  let dist2 := (checkX - g.1)^2 + (checkY - g.2)^2
  decide (dist2 < (car.hexSize * (3/5))^2) &&
    (isOccupied occ (getHexKey g.1 g.2) &&
      decide (getHexKey g.1 g.2 ≠ getHexKey car.x car.y))

/-- A candidate move as returned by `tryDirection`. -/
structure MoveCand where
  x : ℚ
  y : ℚ
  direction : Nat
deriving DecidableEq, Repr

/-- `Car.prototype.tryDirection`: bounds check, destination occupancy check,
two interior path samples, and a crossing check against the most recent 100
recorded segments (`checkStart = max(0, allLines.length - 100)`). -/
def tryDirection (car : Car) (occ : List (Key × Nat)) (canvasWidth canvasHeight : ℚ)
    (allLines : List Seg) (dirIndex : Nat) : Option MoveCand :=
  let dir := (hexDirections car.hexSize).getD dirIndex (0, 0)
  let nextX := car.x + dir.1
  let nextY := car.y + dir.2
  if nextX < 0 ∨ canvasWidth ≤ nextX ∨ nextY < 0 ∨ canvasHeight ≤ nextY then
    none
  else if isOccupied occ (getHexKey nextX nextY) then
    none
  else if ¬ (([1, 2] : List ℕ).all fun step => !sampleBlocked car occ dir.1 dir.2 step) then
    none
  else if ¬ ((allLines.drop (allLines.length - 100)).all fun l =>
      !linesIntersect car.hexSize car.x car.y nextX nextY l.x1 l.y1 l.x2 l.y2) then
    none
  else
    some ⟨nextX, nextY, dirIndex⟩

/-! Spec-side restatement of §4.3 move legality, for the refinement claim:
the four conditions written as propositions in the spec's wording. -/

/-- Spec §4.3 condition 3, for one sample point: the point snaps — within 60%
of one hex edge — to an occupied cell other than the agent's own current
cell.  (Distance squared against tolerance squared, see `sampleBlocked`.) -/
def SnapsToOccupiedForeignCell (car : Car) (occ : List (Key × Nat)) (px py : ℚ) : Prop :=
  let g := snapPoint car.hexSize px py
  (px - g.1)^2 + (py - g.2)^2 < (car.hexSize * (3/5))^2 ∧
  isOccupied occ (getHexKey g.1 g.2) = true ∧
  getHexKey g.1 g.2 ≠ getHexKey car.x car.y

/-- Spec §4.3 condition 4, for one existing segment: the standard two-line
parametric intersection test, counted only when both interpolation parameters
are strictly inside (0.05, 0.95), and never when the segments share an
endpoint within 15% of hex size. -/
def SegmentsCross (hexSize x1 y1 x2 y2 x3 y3 x4 y4 : ℚ) : Prop :=
  let th := hexSize * (3/20)
  ¬ ((|x1 - x3| < th ∧ |y1 - y3| < th) ∨ (|x1 - x4| < th ∧ |y1 - y4| < th) ∨
     (|x2 - x3| < th ∧ |y2 - y3| < th) ∨ (|x2 - x4| < th ∧ |y2 - y4| < th)) ∧
  1/10000 ≤ |(y4 - y3) * (x2 - x1) - (x4 - x3) * (y2 - y1)| ∧
  (let denom := (y4 - y3) * (x2 - x1) - (x4 - x3) * (y2 - y1)
   let ua := ((x4 - x3) * (y1 - y3) - (y4 - y3) * (x1 - x3)) / denom
   let ub := ((x2 - x1) * (y1 - y3) - (y2 - y1) * (x1 - x3)) / denom
   1/20 < ua ∧ ua < 19/20 ∧ 1/20 < ub ∧ ub < 19/20)

/-- Spec §4.3: a candidate direction is legal iff the destination is in
bounds, its canonical key is unoccupied, neither interior sample point at
fractions 1/3 and 2/3 snaps to an occupied foreign cell, and the segment
crosses none of the most recent 100 recorded trace segments. -/
def LegalMoveSpec (car : Car) (occ : List (Key × Nat)) (canvasWidth canvasHeight : ℚ)
    (allLines : List Seg) (dirIndex : Nat) : Prop :=
  let dir := (hexDirections car.hexSize).getD dirIndex (0, 0)
  let nextX := car.x + dir.1
  let nextY := car.y + dir.2
  (0 ≤ nextX ∧ nextX < canvasWidth ∧ 0 ≤ nextY ∧ nextY < canvasHeight) ∧
  isOccupied occ (getHexKey nextX nextY) = false ∧
  (∀ step ∈ ([1, 2] : List ℕ),
    ¬ SnapsToOccupiedForeignCell car occ
        (car.x + dir.1 * ((step : ℚ) / 3)) (car.y + dir.2 * ((step : ℚ) / 3))) ∧
  (∀ l ∈ allLines.drop (allLines.length - 100),
    ¬ SegmentsCross car.hexSize car.x car.y nextX nextY l.x1 l.y1 l.x2 l.y2)

theorem linesIntersect_iff (hexSize x1 y1 x2 y2 x3 y3 x4 y4 : ℚ) :
    linesIntersect hexSize x1 y1 x2 y2 x3 y3 x4 y4 = true ↔
    SegmentsCross hexSize x1 y1 x2 y2 x3 y3 x4 y4 := by
  unfold linesIntersect SegmentsCross
  dsimp only
  split_ifs with h₁ h₂
  · simp [h₁]
  · simp only [decide_eq_true_eq] at *
    constructor
    · intro h; exact absurd h (by simp)
    · rintro ⟨-, hd, -⟩
      exact absurd h₂ (not_lt.mpr hd)
  · simp only [decide_eq_true_eq, not_lt] at *
    constructor
    · intro h; exact ⟨h₁, h₂, h⟩
    · rintro ⟨-, -, h⟩; exact h

theorem sampleBlocked_iff (car : Car) (occ : List (Key × Nat)) (dx dy : ℚ) (step : ℕ) :
    sampleBlocked car occ dx dy step = true ↔
    SnapsToOccupiedForeignCell car occ
      (car.x + dx * ((step : ℚ) / 3)) (car.y + dy * ((step : ℚ) / 3)) := by
  unfold sampleBlocked SnapsToOccupiedForeignCell
  simp [Bool.and_eq_true, decide_eq_true_eq, and_assoc]

theorem samples_all_clear_iff (car : Car) (occ : List (Key × Nat)) (dx dy : ℚ) :
    (([1, 2] : List ℕ).all fun step => !sampleBlocked car occ dx dy step) = true ↔
    ∀ step ∈ ([1, 2] : List ℕ),
      ¬ SnapsToOccupiedForeignCell car occ
          (car.x + dx * ((step : ℚ) / 3)) (car.y + dy * ((step : ℚ) / 3)) := by
  simp [List.all_eq_true, ← sampleBlocked_iff]

theorem lines_all_clear_iff (car : Car) (lines : List Seg) (nextX nextY : ℚ) :
    ((lines.drop (lines.length - 100)).all fun l =>
        !linesIntersect car.hexSize car.x car.y nextX nextY l.x1 l.y1 l.x2 l.y2) = true ↔
    ∀ l ∈ lines.drop (lines.length - 100),
      ¬ SegmentsCross car.hexSize car.x car.y nextX nextY l.x1 l.y1 l.x2 l.y2 := by
  simp [List.all_eq_true, ← linesIntersect_iff]

/-- **C3** (move legality).  `tryDirection` returns a move (non-`none`) iff:
the destination is within canvas bounds; the destination's canonical key is
unoccupied; neither interior sample point at fractions 1/3 and 2/3 of the
segment snaps (within 60% of one hex edge) to an occupied cell other than
the agent's own current cell; and the segment from the agent's position to
the destination does not cross any of the most recent 100 recorded trace
segments, where a crossing requires both parametric interpolation parameters
strictly inside (0.05, 0.95) and segments sharing an endpoint within 15% of
hex size never count as crossing. -/
theorem tryDirection_isSome_iff_legal (car : Car) (occ : List (Key × Nat))
    (canvasWidth canvasHeight : ℚ) (lines : List Seg) (dirIndex : Nat) :
    (tryDirection car occ canvasWidth canvasHeight lines dirIndex).isSome = true ↔
    LegalMoveSpec car occ canvasWidth canvasHeight lines dirIndex := by
  unfold tryDirection LegalMoveSpec
  dsimp only
  split_ifs with h₁ h₂ h₃ h₄
  · simp only [Option.isSome_none, Bool.false_eq_true, false_iff]
    rintro ⟨⟨hb₁, hb₂, hb₃, hb₄⟩, -, -, -⟩
    rcases h₁ with h | h | h | h
    · exact absurd hb₁ (not_le.mpr h)
    · exact absurd hb₂ (not_lt.mpr h)
    · exact absurd hb₃ (not_le.mpr h)
    · exact absurd hb₄ (not_lt.mpr h)
  · simp only [Option.isSome_none, Bool.false_eq_true, false_iff]
    rintro ⟨-, hocc, -, -⟩
    rw [hocc] at h₂
    exact Bool.false_ne_true h₂
  · simp only [Option.isSome_some, true_iff]
    push_neg at h₁
    refine ⟨⟨h₁.1, lt_of_not_le (fun hle => ?_), h₁.2.2.1, lt_of_not_le (fun hle => ?_)⟩,
      Bool.eq_false_iff.mpr h₂, ?_, ?_⟩
    · exact absurd (h₁.2.1) (not_lt.mpr hle)
    · exact absurd (h₁.2.2.2) (not_lt.mpr hle)
    · exact (samples_all_clear_iff car occ _ _).mp h₃
    · exact (lines_all_clear_iff car lines _ _).mp h₄
  · simp only [Option.isSome_none, Bool.false_eq_true, false_iff]
    rintro ⟨-, -, -, hlines⟩
    exact h₄ ((lines_all_clear_iff car lines _ _).mpr hlines)
  · simp only [Option.isSome_none, Bool.false_eq_true, false_iff]
    rintro ⟨-, -, hsteps, -⟩
    exact h₃ ((samples_all_clear_iff car occ _ _).mpr hsteps)

/-! ### Strategy priority lists (`CircuitBoard.prototype.calculateMove`) -/

/-- The random draws consumed by one `calculateMove` call: the wanderer's two
coin flips (`Math.random() < 0.5`, `true` picks the first alternative) and
the explorer's five Fisher–Yates draws (`Math.floor(Math.random() * (i+1))`
for `i = 5, 4, 3, 2, 1`). -/
structure MoveRand where
  coin60 : Bool := false
  coin120 : Bool := false
  j5 : Fin 6 := 0
  j4 : Fin 5 := 0
  j3 : Fin 4 := 0
  j2 : Fin 3 := 0
  j1 : Fin 2 := 0
deriving DecidableEq, Repr

/-- One iteration of the source's in-place Fisher–Yates loop:
swap positions `i` and `j`. -/
def swapIdx (l : List ℕ) (i j : ℕ) : List ℕ :=
  (l.set i (l.getD j 0)).set j (l.getD i 0)

/-- The explorer's full shuffle (`for i = 5 downto 1, j = rand(i+1), swap`). -/
def fyShuffle (l : List ℕ) (r : MoveRand) : List ℕ :=
  swapIdx (swapIdx (swapIdx (swapIdx (swapIdx l 5 r.j5) 4 r.j4) 3 r.j3) 2 r.j2) 1 r.j1

/-- The priority list built by `calculateMove` for each strategy, with
`straightAhead = car.currentDirection` and the agent's turn preference. -/
def calculatePriorities (strategy : Strategy) (straightAhead : ℕ) (pref : TurnDir)
    (r : MoveRand) : List ℕ :=
  match strategy with
  | .wanderer =>
      [ straightAhead,
        (straightAhead + (if r.coin60 then 1 else 5)) % 6,
        (straightAhead + (if r.coin120 then 2 else 4)) % 6,
        (straightAhead + 3) % 6,
        (straightAhead + 1) % 6,
        (straightAhead + 5) % 6 ]
  | .spiral =>
      let turnDir : ℕ := if pref = .right then 1 else 5
      [ (straightAhead + turnDir) % 6,
        (straightAhead + turnDir * 2) % 6,
        straightAhead,
        (straightAhead + 3) % 6,
        (straightAhead + (if turnDir = 1 then 5 else 1)) % 6,
        (straightAhead + (if turnDir = 1 then 4 else 2)) % 6 ]
  | .explorer =>
      fyShuffle ((List.range 6).map fun i => (straightAhead + i) % 6) r
  | .wallFollower =>
      if pref = .right then
        [ (straightAhead + 1) % 6,
          straightAhead,
          (straightAhead + 2) % 6,
          (straightAhead + 3) % 6,
          (straightAhead + 4) % 6,
          (straightAhead + 5) % 6 ]
      else
        [ (straightAhead + 5) % 6,
          straightAhead,
          (straightAhead + 4) % 6,
          (straightAhead + 3) % 6,
          (straightAhead + 2) % 6,
          (straightAhead + 1) % 6 ]

theorem getD_cons_set_perm (l : List ℕ) (k a : ℕ) (hk : k < l.length) :
    (l.getD k 0 :: l.set k a).Perm (a :: l) := by
  induction l generalizing k with
  | nil => simp at hk
  | cons b t ih =>
    cases k with
    | zero => simpa using List.Perm.swap a b t
    | succ k' =>
      have hk' : k' < t.length := Nat.lt_of_succ_lt_succ hk
      exact ((List.Perm.swap b (t.getD k' 0) (t.set k' a)).trans
        ((ih k' hk').cons b)).trans (List.Perm.swap a b t)

theorem swapIdx_perm (l : List ℕ) (i j : ℕ) (hi : i < l.length) (hj : j < l.length) :
    (swapIdx l i j).Perm l := by
  induction l generalizing i j with
  | nil => simp at hi
  | cons b t ih =>
    cases i with
    | zero =>
      cases j with
      | zero => simp [swapIdx]
      | succ k =>
        have hk : k < t.length := Nat.lt_of_succ_lt_succ hj
        simpa [swapIdx] using getD_cons_set_perm t k b hk
    | succ m =>
      cases j with
      | zero =>
        have hm : m < t.length := Nat.lt_of_succ_lt_succ hi
        simpa [swapIdx] using getD_cons_set_perm t m b hm
      | succ k =>
        have hm : m < t.length := Nat.lt_of_succ_lt_succ hi
        have hk : k < t.length := Nat.lt_of_succ_lt_succ hj
        simpa [swapIdx] using (ih m k hm hk).cons b

theorem fyShuffle_perm (l : List ℕ) (r : MoveRand) (hlen : l.length = 6) :
    (fyShuffle l r).Perm l := by
  have b5 : (r.j5 : ℕ) < 6 := r.j5.isLt
  have b4 : (r.j4 : ℕ) < 5 := r.j4.isLt
  have b3 : (r.j3 : ℕ) < 4 := r.j3.isLt
  have b2 : (r.j2 : ℕ) < 3 := r.j2.isLt
  have b1 : (r.j1 : ℕ) < 2 := r.j1.isLt
  have h₅ : (swapIdx l 5 r.j5).Perm l :=
    swapIdx_perm l 5 r.j5 (by omega) (by omega)
  have e₅ : (swapIdx l 5 r.j5).length = 6 := by rw [h₅.length_eq, hlen]
  have h₄ : (swapIdx (swapIdx l 5 r.j5) 4 r.j4).Perm (swapIdx l 5 r.j5) :=
    swapIdx_perm (swapIdx l 5 r.j5) 4 r.j4 (by omega) (by omega)
  have e₄ : (swapIdx (swapIdx l 5 r.j5) 4 r.j4).length = 6 := by rw [h₄.length_eq, e₅]
  have h₃ : (swapIdx (swapIdx (swapIdx l 5 r.j5) 4 r.j4) 3 r.j3).Perm
      (swapIdx (swapIdx l 5 r.j5) 4 r.j4) :=
    swapIdx_perm (swapIdx (swapIdx l 5 r.j5) 4 r.j4) 3 r.j3 (by omega) (by omega)
  have e₃ : (swapIdx (swapIdx (swapIdx l 5 r.j5) 4 r.j4) 3 r.j3).length = 6 := by
    rw [h₃.length_eq, e₄]
  have h₂ : (swapIdx (swapIdx (swapIdx (swapIdx l 5 r.j5) 4 r.j4) 3 r.j3) 2 r.j2).Perm
      (swapIdx (swapIdx (swapIdx l 5 r.j5) 4 r.j4) 3 r.j3) :=
    swapIdx_perm (swapIdx (swapIdx (swapIdx l 5 r.j5) 4 r.j4) 3 r.j3) 2 r.j2
      (by omega) (by omega)
  have e₂ : (swapIdx (swapIdx (swapIdx (swapIdx l 5 r.j5) 4 r.j4) 3 r.j3) 2 r.j2).length = 6 := by
    rw [h₂.length_eq, e₃]
  have h₁ : (swapIdx (swapIdx (swapIdx (swapIdx (swapIdx l 5 r.j5) 4 r.j4) 3 r.j3) 2 r.j2) 1
      r.j1).Perm (swapIdx (swapIdx (swapIdx (swapIdx l 5 r.j5) 4 r.j4) 3 r.j3) 2 r.j2) :=
    swapIdx_perm (swapIdx (swapIdx (swapIdx (swapIdx l 5 r.j5) 4 r.j4) 3 r.j3) 2 r.j2) 1 r.j1
      (by omega) (by omega)
  exact (((h₁.trans h₂).trans h₃).trans h₄).trans h₅

theorem explorer_base_perm (s : Fin 6) :
    ((List.range 6).map fun i => (s.val + i) % 6).Perm [0, 1, 2, 3, 4, 5] := by
  revert s; decide

/-- **C4, counterexample.**  The wanderer's priority list is not, in general,
a permutation of the six directions: with heading 0 and both coin flips
landing on the first alternative, direction 1 appears twice and direction 4
is missing. -/
theorem wanderer_priorities_not_perm :
    calculatePriorities .wanderer 0 .right
        { coin60 := true, coin120 := true } = [0, 1, 2, 3, 1, 5] ∧
    ¬ (calculatePriorities .wanderer 0 .right
        { coin60 := true, coin120 := true }).Perm [0, 1, 2, 3, 4, 5] := by
  constructor
  · rfl
  · decide

/-- **C4, amended.**  For the wall-follower, spiral and explorer strategies,
every heading, turn preference and random draw yields a priority list that is
a permutation of all six directions.  The wanderer's list always has six
entries but is never a permutation: the 60°-coin's chosen turn appears twice
(at position 2 and at one of the two fixed last-resort slots) and the 120°
turn opposite to the 120°-coin's choice is omitted. -/
theorem calculatePriorities_perm_amended (s : Fin 6) (pref : TurnDir) (r : MoveRand) :
    (calculatePriorities .wallFollower s.val pref r).Perm [0, 1, 2, 3, 4, 5] ∧
    (calculatePriorities .spiral s.val pref r).Perm [0, 1, 2, 3, 4, 5] ∧
    (calculatePriorities .explorer s.val pref r).Perm [0, 1, 2, 3, 4, 5] ∧
    (calculatePriorities .wanderer s.val pref r).length = 6 ∧
    ¬ (calculatePriorities .wanderer s.val pref r).Nodup ∧
    (calculatePriorities .wanderer s.val pref r).count
        ((s.val + (if r.coin60 then 1 else 5)) % 6) = 2 ∧
    ((s.val + (if r.coin120 then 4 else 2)) % 6) ∉
      calculatePriorities .wanderer s.val pref r := by
  obtain ⟨c60, c120, j5, j4, j3, j2, j1⟩ := r
  refine ⟨?_, ?_, ?_, ?_, ?_, ?_, ?_⟩
  · exact (show (calculatePriorities .wallFollower s.val pref
        ⟨false, false, 0, 0, 0, 0, 0⟩).Perm [0, 1, 2, 3, 4, 5] by revert s pref; decide)
  · exact (show (calculatePriorities .spiral s.val pref
        ⟨false, false, 0, 0, 0, 0, 0⟩).Perm [0, 1, 2, 3, 4, 5] by revert s pref; decide)
  · exact (fyShuffle_perm _ _ (by simp)).trans (explorer_base_perm s)
  · rfl
  · exact (show ¬ (calculatePriorities .wanderer s.val .right
        ⟨c60, c120, 0, 0, 0, 0, 0⟩).Nodup by revert s c60 c120; decide)
  · exact (show (calculatePriorities .wanderer s.val .right
        ⟨c60, c120, 0, 0, 0, 0, 0⟩).count ((s.val + (if c60 = true then 1 else 5)) % 6) = 2 by
      revert s c60 c120; decide)
  · exact (show ((s.val + (if c120 = true then 4 else 2)) % 6) ∉
        calculatePriorities .wanderer s.val .right ⟨c60, c120, 0, 0, 0, 0, 0⟩ by
      revert s c60 c120; decide)

/-! ### Fading-mode brightness (`CircuitBoard.prototype.draw`, darknessFactor) -/

/-- The per-trace brightness multiplier computed at render time in `draw`:
1.0 for live cars, in infinite-lifetime mode, or when no death time is
recorded; for a dead car, 1.0 while `timeSinceDeath ≤ traceLifetime` (in
milliseconds), then `1 - min(1, fadeStart / fadeDuration)`. -/
def darknessFactor (infiniteLifetime isAlive : Bool) (deathTime : Option ℚ)
    (currentTime traceLifetime fadeDuration : ℚ) : ℚ :=
  if !infiniteLifetime && !isAlive then
    match deathTime with
    | some dt =>
      let timeSinceDeath := currentTime - dt
      let lifetimeMs := traceLifetime * 1000
      if timeSinceDeath ≤ lifetimeMs then 1
      else
        let fadeStartTime := timeSinceDeath - lifetimeMs
        let fadeDurationMs := fadeDuration * 1000
        let fadeProgress := min 1 (fadeStartTime / fadeDurationMs)
        1 - fadeProgress
    | none => 1
  else 1

/-- **C5** (fading-mode brightness).  A dead agent's brightness is a pure
function of the elapsed time `t = currentTime - deathTime`: exactly 1 for
`t ≤ traceLifetime` (seconds, stored in ms), a linear ramp
`1 - (t - traceLifetime·1000)/(fadeDuration·1000)` until
`t = (traceLifetime + fadeDuration)·1000`, and 0 thereafter; live agents
always render at brightness 1; and in the spec's concrete instance
(`traceLifetime = 2`, `fadeDuration = 1`, `t = 2.5 s`) the brightness is
exactly `1/2`. -/
theorem darknessFactor_spec (dt currentTime traceLifetime fadeDuration : ℚ)
    (hF : 0 < fadeDuration) :
    (∀ (infinite : Bool) (dto : Option ℚ) (ct tl fd : ℚ),
        darknessFactor infinite true dto ct tl fd = 1) ∧
    (currentTime - dt ≤ traceLifetime * 1000 →
        darknessFactor false false (some dt) currentTime traceLifetime fadeDuration = 1) ∧
    (traceLifetime * 1000 ≤ currentTime - dt →
        currentTime - dt ≤ (traceLifetime + fadeDuration) * 1000 →
        darknessFactor false false (some dt) currentTime traceLifetime fadeDuration =
          1 - (currentTime - dt - traceLifetime * 1000) / (fadeDuration * 1000)) ∧
    ((traceLifetime + fadeDuration) * 1000 ≤ currentTime - dt →
        darknessFactor false false (some dt) currentTime traceLifetime fadeDuration = 0) ∧
    darknessFactor false false (some 0) 2500 2 1 = 1/2 := by
  have hFd : (0 : ℚ) < fadeDuration * 1000 := by linarith
  refine ⟨fun infinite dto ct tl fd => by simp [darknessFactor], ?_, ?_, ?_, ?_⟩
  · intro ht
    simp [darknessFactor, ht]
  · intro h₁ h₂
    unfold darknessFactor
    rw [if_pos (show (!false && !false) = true from rfl)]
    dsimp only
    split_ifs with hle
    · have heq : currentTime - dt = traceLifetime * 1000 := le_antisymm hle h₁
      rw [heq]
      simp
    · have hle' : (currentTime - dt - traceLifetime * 1000) / (fadeDuration * 1000) ≤ 1 := by
        rw [div_le_one hFd]
        linarith
      rw [min_eq_right hle']
  · intro h₁
    unfold darknessFactor
    rw [if_pos (show (!false && !false) = true from rfl)]
    dsimp only
    split_ifs with hle
    · exfalso; linarith
    · have hge : (1 : ℚ) ≤ (currentTime - dt - traceLifetime * 1000) / (fadeDuration * 1000) := by
        rw [le_div_iff₀ hFd]
        linarith
      rw [min_eq_left hge]
      ring
  · norm_num [darknessFactor]

theorem darknessFactor_spec_witness :
    (0 : ℚ) < 1 ∧ darknessFactor false false (some 0) 2500 2 1 = 1/2 :=
  ⟨by norm_num, (darknessFactor_spec 0 2500 2 1 (by norm_num)).2.2.2.2⟩

/-! ### The `CircuitBoard` state and its operations -/

/-- One strategy's fitness aggregate (`this.strategyFitness[strategy]`). -/
structure FitnessAgg where
  totalLifetime : ℚ := 0
  count : Nat := 0
  totalDistance : ℚ := 0
  totalCells : ℚ := 0
deriving DecidableEq, Repr

/-- The mutable `CircuitBoard` state.  Canvas/DOM plumbing is out of scope;
the render-only `carPaths` bookkeeping is not modelled (no claim touches
it). -/
structure Board where
  hexSize : ℚ := 100
  canvasWidth : ℚ := 1000
  canvasHeight : ℚ := 1000
  occupiedCells : List (Key × Nat) := []
  cellTimestamps : List (Key × ℚ) := []
  cellOwners : List (Key × Nat) := []
  allLines : List Seg := []
  cars : List Car := []
  maxCars : Nat := 2
  nextCarId : Nat := 0
  deadCarIds : List (Nat × ℚ) := []
  strategyFitness : Strategy → FitnessAgg := fun _ => {}
  mutationRate : ℚ := 1/10
  infiniteLifetime : Bool := false
  traceLifetime : ℚ := 2
  fadeDuration : ℚ := 1
  lineWidth : ℚ := 10
  stepDelay : ℚ := 10
  lastStepTime : ℚ := 0
  spawnDelay : ℚ := 100
  lastSpawnTime : ℚ := 0
  cleanupFrameCounter : Nat := 0

/-- The option bag consumed by the `CircuitBoard` constructor; `none` models
a JS `undefined`. -/
structure Options where
  hexSize : Option ℚ := none
  maxCars : Option Nat := none
  mutationRate : Option ℚ := none
  infiniteLifetime : Option Bool := none
  traceLifetime : Option ℚ := none
  fadeDuration : Option ℚ := none
  lineWidth : Option ℚ := none
  stepDelay : Option ℚ := none
  spawnDelay : Option ℚ := none
deriving Repr

/-- The `CircuitBoard` constructor's configuration handling.  `hexSize` and
`maxCars` use `options.x || default` (so any falsy value, e.g. 0, falls back
to the default); every other option uses `options.x !== undefined ? options.x
: default` and therefore stores whatever value was supplied — negative
values included — with no validation.  The canvas dimensions come from the
window and are passed through here. -/
def mkBoard (opts : Options) (canvasWidth canvasHeight : ℚ) : Board :=
  { hexSize := match opts.hexSize with
      | some v => if v = 0 then 100 else v
      | none => 100
    canvasWidth := canvasWidth
    canvasHeight := canvasHeight
    maxCars := match opts.maxCars with
      | some v => if v = 0 then 2 else v
      | none => 2
    mutationRate := opts.mutationRate.getD (1/10)
    infiniteLifetime := opts.infiniteLifetime.getD false
    traceLifetime := opts.traceLifetime.getD 2
    fadeDuration := opts.fadeDuration.getD 1
    lineWidth := opts.lineWidth.getD 10
    stepDelay := opts.stepDelay.getD 10
    spawnDelay := opts.spawnDelay.getD 100 }

/-- Birth randomness of a `Car` (hue draw, turn-preference coin, initial
direction draw). -/
structure CarSeed where
  hueOffset : ℚ := 0
  pref : TurnDir := .right
  dir0 : Fin 6 := 0
deriving DecidableEq, Repr

/-- The `Car` constructor followed by the `car.prevX/prevY` assignments of
`spawnCar`. -/
def freshCar (gridX gridY hexSize : ℚ) (strat : Strategy) (seed : CarSeed)
    (carId : Nat) (now : ℚ) : Car :=
  { x := gridX, y := gridY, hexSize := hexSize, stuck := false, id := carId,
    birthTime := now, hueOffset := seed.hueOffset, distanceTraveled := 0,
    cellsVisited := 0, strategy := strat, preferredTurnDirection := seed.pref,
    previousDirection := none, currentDirection := seed.dir0,
    prevX := gridX, prevY := gridY }

/-- The lattice point of integer row/column indices with the odd-row offset
(the body of both the random-attempt loop and the exhaustive scan). -/
def gridPointOf (hexSize : ℚ) (row col : ℕ) : ℚ × ℚ :=
  let xOffset : ℚ := if row % 2 = 0 then 0 else hexSize / 2
  ((col : ℚ) * hexSize + xOffset, (row : ℚ) * rowHeightOf hexSize)

/-- Commit a successful spawn: mark the cell occupied (value
`(old || 0) + 1`), stamp it, record the owner, and push the new car. -/
def placeCar (b : Board) (strat : Strategy) (seed : CarSeed)
    (now gridX gridY : ℚ) : Board :=
  let key := getHexKey gridX gridY
  let car := freshCar gridX gridY b.hexSize strat seed b.nextCarId now
  { b with
    nextCarId := b.nextCarId + 1
    occupiedCells := aset b.occupiedCells key ((alookup b.occupiedCells key).getD 0 + 1)
    cellTimestamps := aset b.cellTimestamps key now
    cellOwners := aset b.cellOwners key b.nextCarId
    cars := b.cars ++ [car] }

/-- The exhaustive row/column fallback scan of `spawnCar`, in source order:
`numRows = ceil(height/rowHeight)` rows by `numCols = ceil(width/hexSize)`
columns, keeping only in-bounds lattice points. -/
def scanCells (b : Board) : List (ℚ × ℚ) :=
  (List.range (⌈b.canvasHeight / rowHeightOf b.hexSize⌉).toNat).flatMap fun row =>
    (List.range (⌈b.canvasWidth / b.hexSize⌉).toNat).filterMap fun col =>
      let g := gridPointOf b.hexSize row col
      if 0 ≤ g.1 ∧ g.1 < b.canvasWidth ∧ 0 ≤ g.2 ∧ g.2 < b.canvasHeight then
        some g
      else none

/-- `CircuitBoard.prototype.spawnCar`.  `attemptDraws` supplies the (row,
column) outcomes of the source's up-to-100 uniform random draws
(`maxAttempts = 100`); the fitness-based strategy draw, which reads but
never writes board state, is supplied as `strat`.  Returns the source's
boolean result together with the updated state. -/
def spawnCar (b : Board) (strat : Strategy) (seed : CarSeed)
    (attemptDraws : List (ℕ × ℕ)) (now : ℚ) : Bool × Board :=
  match (attemptDraws.take 100).find? (fun rc =>
      !isOccupied b.occupiedCells
        (getHexKey (gridPointOf b.hexSize rc.1 rc.2).1 (gridPointOf b.hexSize rc.1 rc.2).2)) with
  | some rc =>
      (true, placeCar b strat seed now
        (gridPointOf b.hexSize rc.1 rc.2).1 (gridPointOf b.hexSize rc.1 rc.2).2)
  | none =>
      match (scanCells b).find? (fun g => !isOccupied b.occupiedCells (getHexKey g.1 g.2)) with
      | some g => (true, placeCar b strat seed now g.1 g.2)
      | none => (false, b)

/-- The move record returned by `calculateMove`. -/
structure Move where
  x : ℚ
  y : ℚ
  direction : Nat
  oldDirection : Nat := 0
  is180 : Bool := false
deriving DecidableEq, Repr

/-- Update the car object with the given id (the source mutates the `Car`
through its reference; ids are unique). -/
def updCar (cars : List Car) (cid : Nat) (f : Car → Car) : List Car :=
  cars.map fun c => if c.id = cid then f c else c

/-- `CircuitBoard.prototype.executeMove` for the car with id `cid`: snap the
destination, refuse (marking the car stuck) if the snapped key is occupied,
otherwise occupy/stamp/own the key, advance the car (position, fitness
counters, turn-preference flip, heading) and append the trace segment. -/
def executeMove (b : Board) (cid : Nat) (mv : Move) (now : ℚ) : Board :=
  match b.cars.find? (fun c => c.id = cid) with
  | none => b
  | some car =>
    let snapped := snapPoint b.hexSize mv.x mv.y
    let key := getHexKey snapped.1 snapped.2
    if isOccupied b.occupiedCells key then
      { b with cars := updCar b.cars cid (fun c => { c with stuck := true }) }
    else
      let seg : Seg :=
        { x1 := car.x, y1 := car.y, x2 := snapped.1, y2 := snapped.2,
          carId := car.id, hueOffset := car.hueOffset, birthTime := car.birthTime,
          timestamp := now,
          segmentIndex := (b.allLines.filter (fun l => l.carId == car.id)).length }
      { b with
        occupiedCells := aset b.occupiedCells key ((alookup b.occupiedCells key).getD 0 + 1)
        cellTimestamps := aset b.cellTimestamps key now
        cellOwners := aset b.cellOwners key cid
        cars := updCar b.cars cid (fun c =>
          let turnAngle := (mv.direction + 6 - c.currentDirection) % 6
          { c with
            x := snapped.1
            y := snapped.2
            previousDirection := some c.currentDirection
            distanceTraveled := c.distanceTraveled +
              ((snapped.1 - c.x)^2 + (snapped.2 - c.y)^2)
            cellsVisited := c.cellsVisited + 1
            preferredTurnDirection :=
              if c.preferredTurnDirection = .right then
                (if turnAngle = 4 ∨ turnAngle = 5 then .left else .right)
              else
                (if turnAngle = 1 ∨ turnAngle = 2 then .right else .left)
            currentDirection := mv.direction })
        allLines := b.allLines ++ [seg] }

/-- `CircuitBoard.prototype.removeCarTraces`: delete every cell owned by the
car from the three maps, drop its segments, and forget its death record. -/
def removeCarTraces (b : Board) (carId : Nat) : Board :=
  let keysToRemove := (b.cellOwners.filter (fun p => p.2 == carId)).map (·.1)
  { b with
    occupiedCells := aeraseAll b.occupiedCells keysToRemove
    cellTimestamps := aeraseAll b.cellTimestamps keysToRemove
    cellOwners := aeraseAll b.cellOwners keysToRemove
    allLines := b.allLines.filter (fun l => l.carId != carId)
    deadCarIds := aerase b.deadCarIds carId }

/-- `CircuitBoard.prototype.clearFadedCells` (fading mode only, every 10th
frame): collect the keys whose owner is dead and fully faded
(`timeSinceDeath > (traceLifetime + fadeDuration) * 1000`), delete them from
the three maps, and — only when at least one key was removed — filter the
segment list with `line.carId && !deadCarIdsToCleanup.has(line.carId)` and
forget the cleaned-up death records. -/
def clearFadedCells (b : Board) (currentTime : ℚ) (aliveCarIds : List Nat) : Board :=
  if b.infiniteLifetime then b
  else
    let b₁ := { b with cleanupFrameCounter := b.cleanupFrameCounter + 1 }
    if b₁.cleanupFrameCounter % 10 ≠ 0 then b₁
    else
      let total := (b₁.traceLifetime + b₁.fadeDuration) * 1000
      let keysToRemove := (b₁.cellTimestamps.map (·.1)).filter fun k =>
        match alookup b₁.cellOwners k with
        | some ownerId =>
            if ownerId ∈ aliveCarIds then false
            else
              match alookup b₁.deadCarIds ownerId with
              | some deathTime => decide (currentTime - deathTime > total)
              | none => false
        | none => false
      let cleanupIds := keysToRemove.filterMap fun k => alookup b₁.cellOwners k
      let b₂ := { b₁ with
        occupiedCells := aeraseAll b₁.occupiedCells keysToRemove
        cellTimestamps := aeraseAll b₁.cellTimestamps keysToRemove
        cellOwners := aeraseAll b₁.cellOwners keysToRemove }
      if keysToRemove.length > 0 then
        { b₂ with
          allLines := b₂.allLines.filter fun l =>
            decide (l.carId ≠ 0) && decide (l.carId ∉ cleanupIds)
          deadCarIds := b₂.deadCarIds.filter fun p => decide (p.1 ∉ cleanupIds) }
      else b₂

/-! ### One discrete step of `draw` (PHASES 1–4) -/

/-- `scoreMove` always accepts (`return 100`). -/
def scoreMove (_mv : MoveCand) (_car : Car) : ℚ := 100

/-- `CircuitBoard.prototype.calculateMove`: build the strategy's priority
list, try each direction in order and return the first whose `tryDirection`
succeeds and whose `scoreMove` is non-negative, flagging 180° reversals. -/
def calculateMove (b : Board) (car : Car) (r : MoveRand) : Option Move :=
  let priorities := calculatePriorities car.strategy car.currentDirection
      car.preferredTurnDirection r
  priorities.findSome? fun dirIndex =>
    match tryDirection car b.occupiedCells b.canvasWidth b.canvasHeight b.allLines dirIndex with
    | some m =>
        if 0 ≤ scoreMove m car then
          some { x := m.x, y := m.y, direction := m.direction,
                 oldDirection := car.currentDirection,
                 is180 := decide ((dirIndex + 6 - car.currentDirection) % 6 = 3) }
        else none
    | none => none

/-- One element of the `intendedMoves` array. -/
structure Entry where
  carId : Nat
  move : Option Move
  snappedDestKey : Option Key := none
deriving DecidableEq, Repr

/-- PHASE 1: every live (non-stuck) car computes its intended move; `rands`
supplies one `MoveRand` per live car, in order. -/
def phase1 (b : Board) (rands : List MoveRand) : List Entry :=
  ((b.cars.filter fun c => !c.stuck).zip rands).map fun cr =>
    { carId := cr.1.id, move := calculateMove b cr.1 cr.2 }

/-- PHASE 2 annotation: snap each intended destination to its grid key. -/
def phase2 (b : Board) (entries : List Entry) : List Entry :=
  entries.map fun e =>
    match e.move with
    | some mv => { e with snappedDestKey := some (snappedKey b.hexSize mv.x mv.y) }
    | none => e

/-- PHASE 2 counting: the `destinationCounts` table over snapped keys. -/
def destCounts (entries : List Entry) : List (Key × Nat) :=
  entries.foldl (fun acc e =>
    match e.move, e.snappedDestKey with
    | some _, some k => aset acc k ((alookup acc k).getD 0 + 1)
    | _, _ => acc) []

/-- PHASE 3, one pass over the entry array (`done ++ rest` is the array, the
current entry at the head of `rest`).  A uniquely-claimed destination
commits through `executeMove`.  On a conflict the source scans the whole
array for claimants of the key whose move has not been nulled, executes the
move of the first such claimant (the head-on special case is computed but
both branches behave identically), and nulls only the current entry's move.
An entry with no valid move marks its car stuck and records the death-dot
segment. -/
def phase3Go (b : Board) (counts : List (Key × Nat)) (now : ℚ)
    (done rest : List Entry) : Board × List Entry :=
  match rest with
  | [] => (b, done)
  | e :: rest' =>
    match e.move, e.snappedDestKey with
    | some mv, some k =>
      if (alookup counts k).getD 0 = 1 then
        phase3Go (executeMove b e.carId mv now) counts now (done ++ [e]) rest'
      else
        let conflict := (done ++ e :: rest').filter fun en =>
          en.snappedDestKey == some k && en.move.isSome
        let b' := match conflict with
          | w :: _ =>
            match w.move with
            | some wmv => executeMove b w.carId wmv now
            | none => b
          | [] => b
        phase3Go b' counts now (done ++ [{ e with move := none }]) rest'
    | _, _ =>
      let b₁ := { b with cars := updCar b.cars e.carId fun c => { c with stuck := true } }
      let b₂ := match b₁.cars.find? (fun c => c.id = e.carId) with
        | some car =>
          { b₁ with allLines := b₁.allLines ++
              [{ x1 := car.x, y1 := car.y, x2 := car.x, y2 := car.y,
                 carId := car.id, hueOffset := car.hueOffset,
                 birthTime := car.birthTime, timestamp := now,
                 segmentIndex := (b₁.allLines.filter fun l => l.carId == car.id).length }] }
        | none => b₁
      phase3Go b₂ counts now (done ++ [e]) rest'

/-- Fitness recording for one retiring car (the PHASE 4 loop body). -/
def bumpFitness (f : Strategy → FitnessAgg) (car : Car) (lifetime : ℚ) :
    Strategy → FitnessAgg :=
  fun s =>
    if s = car.strategy then
      { totalLifetime := (f car.strategy).totalLifetime + lifetime
        totalDistance := (f car.strategy).totalDistance + car.distanceTraveled
        totalCells := (f car.strategy).totalCells + (car.cellsVisited : ℚ)
        count := (f car.strategy).count + 1 }
    else f s

/-- PHASE 4: every stuck car records its fitness (lifetime in seconds,
distance, cells visited, count), is marked dead, and is removed from the
active list.  The source iterates the array from its end. -/
def phase4 (b : Board) (now : ℚ) : Board :=
  let stuckCars := (b.cars.filter fun c => c.stuck).reverse
  { b with
    strategyFitness := stuckCars.foldl
      (fun f c => bumpFitness f c ((now - c.birthTime) / 1000)) b.strategyFitness
    deadCarIds := stuckCars.foldl (fun d c => aset d c.id now) b.deadCarIds
    cars := b.cars.filter fun c => !c.stuck }

/-- PHASES 1–4 of one discrete simulation step of `draw` (the spawn/evict
block is `spawnEvictStep` below). -/
def tickPhases (b : Board) (rands : List MoveRand) (now : ℚ) : Board :=
  let entries := phase2 b (phase1 b rands)
  let counts := destCounts entries
  phase4 (phase3Go b counts now [] entries).1 now

/-- The oldest-dead search of `draw` (`oldestDeathTime` starts at infinity;
strict `<`, first minimum wins). -/
def oldestDeadCar (dead : List (Nat × ℚ)) : Option Nat :=
  (dead.foldl (fun best p =>
    match best with
    | none => some p
    | some q => if p.2 < q.2 then some p else best) none).map (·.1)

/-- The spawn block at the end of a `draw` step (assuming its population and
delay guard passed): spawn once; in infinite-lifetime mode, if the spawn
failed and dead cars exist, evict the oldest dead car's entire trace and
retry the spawn exactly once; finally stamp `lastSpawnTime`. -/
def spawnEvictStep (b : Board) (strat₁ : Strategy) (seed₁ : CarSeed)
    (draws₁ : List (ℕ × ℕ)) (strat₂ : Strategy) (seed₂ : CarSeed)
    (draws₂ : List (ℕ × ℕ)) (now : ℚ) : Board :=
  let r := spawnCar b strat₁ seed₁ draws₁ now
  let b₂ :=
    if b.infiniteLifetime && !r.1 && decide (0 < r.2.deadCarIds.length) then
      match oldestDeadCar r.2.deadCarIds with
      | some cid => (spawnCar (removeCarTraces r.2 cid) strat₂ seed₂ draws₂ now).2
      | none => r.2
    else r.2
  { b₂ with lastSpawnTime := now }

/-- The states reachable from construction by the operations that touch the
cell bookkeeping (directly or as part of a tick). -/
inductive Reach : Board → Prop where
  | init (opts : Options) (w h : ℚ) : Reach (mkBoard opts w h)
  | spawn (b : Board) (strat : Strategy) (seed : CarSeed) (draws : List (ℕ × ℕ)) (now : ℚ) :
      Reach b → Reach (spawnCar b strat seed draws now).2
  | exec (b : Board) (cid : Nat) (mv : Move) (now : ℚ) :
      Reach b → Reach (executeMove b cid mv now)
  | removeTraces (b : Board) (cid : Nat) :
      Reach b → Reach (removeCarTraces b cid)
  | clearFaded (b : Board) (t : ℚ) (alive : List Nat) :
      Reach b → Reach (clearFadedCells b t alive)
  | tick (b : Board) (rands : List MoveRand) (now : ℚ) :
      Reach b → Reach (tickPhases b rands now)
  | spawnEvict (b : Board) (s₁ : Strategy) (c₁ : CarSeed) (d₁ : List (ℕ × ℕ))
      (s₂ : Strategy) (c₂ : CarSeed) (d₂ : List (ℕ × ℕ)) (now : ℚ) :
      Reach b → Reach (spawnEvictStep b s₁ c₁ d₁ s₂ c₂ d₂ now)

/-! ### Map-consistency invariant (claims C1 and C10) -/

/-- The implicit bookkeeping invariant: `occupiedCells`, `cellTimestamps` and
`cellOwners` hold exactly the same keys, and every stored occupancy count is
1. -/
def MapsConsistent (b : Board) : Prop :=
  (∀ k, (alookup b.occupiedCells k).isSome ↔ (alookup b.cellOwners k).isSome) ∧
  (∀ k, (alookup b.occupiedCells k).isSome ↔ (alookup b.cellTimestamps k).isSome) ∧
  (∀ k n, alookup b.occupiedCells k = some n → n = 1)

theorem lookup_none_of_not_occupied {b : Board} {k : Key}
    (h : MapsConsistent b) (hk : isOccupied b.occupiedCells k = false) :
    alookup b.occupiedCells k = none := by
  cases hl : alookup b.occupiedCells k with
  | none => rfl
  | some n =>
    have hn : n = 1 := h.2.2 k n hl
    subst hn
    rw [isOccupied, hl] at hk
    simp at hk

theorem mapsConsistent_placeCar (b : Board) (strat : Strategy) (seed : CarSeed)
    (now gx gy : ℚ) (h : MapsConsistent b)
    (hk : isOccupied b.occupiedCells (getHexKey gx gy) = false) :
    MapsConsistent (placeCar b strat seed now gx gy) := by
  obtain ⟨h₁, h₂, h₃⟩ := h
  have hnone : alookup b.occupiedCells (getHexKey gx gy) = none :=
    lookup_none_of_not_occupied ⟨h₁, h₂, h₃⟩ hk
  refine ⟨fun k => ?_, fun k => ?_, fun k n hn => ?_⟩
  · show (alookup (aset b.occupiedCells _ _) k).isSome ↔
      (alookup (aset b.cellOwners _ _) k).isSome
    rw [alookup_aset, alookup_aset]
    by_cases hk' : k = getHexKey gx gy <;> simp [hk', h₁ k]
  · show (alookup (aset b.occupiedCells _ _) k).isSome ↔
      (alookup (aset b.cellTimestamps _ _) k).isSome
    rw [alookup_aset, alookup_aset]
    by_cases hk' : k = getHexKey gx gy <;> simp [hk', h₂ k]
  · rw [show (placeCar b strat seed now gx gy).occupiedCells =
        aset b.occupiedCells (getHexKey gx gy) ((alookup b.occupiedCells (getHexKey gx gy)).getD 0 + 1)
        from rfl, alookup_aset] at hn
    by_cases hk' : k = getHexKey gx gy
    · rw [if_pos hk'] at hn
      rw [hnone] at hn
      simpa using hn.symm
    · rw [if_neg hk'] at hn
      exact h₃ k n hn

theorem mapsConsistent_executeMove (b : Board) (cid : Nat) (mv : Move) (now : ℚ)
    (h : MapsConsistent b) : MapsConsistent (executeMove b cid mv now) := by
  unfold executeMove
  cases hf : b.cars.find? (fun c => c.id = cid) with
  | none => exact h
  | some car =>
    dsimp only
    split_ifs with hocc
    · exact h
    · have hk : isOccupied b.occupiedCells
          (getHexKey (snapPoint b.hexSize mv.x mv.y).1 (snapPoint b.hexSize mv.x mv.y).2) = false :=
        Bool.not_eq_true _ ▸ Bool.of_not_eq_true hocc
      obtain ⟨h₁, h₂, h₃⟩ := h
      have hnone := lookup_none_of_not_occupied ⟨h₁, h₂, h₃⟩ hk
      refine ⟨fun k => ?_, fun k => ?_, fun k n hn => ?_⟩
      · show (alookup (aset b.occupiedCells _ _) k).isSome ↔
          (alookup (aset b.cellOwners _ _) k).isSome
        rw [alookup_aset, alookup_aset]
        by_cases hk' : k = getHexKey (snapPoint b.hexSize mv.x mv.y).1
            (snapPoint b.hexSize mv.x mv.y).2 <;> simp [hk', h₁ k]
      · show (alookup (aset b.occupiedCells _ _) k).isSome ↔
          (alookup (aset b.cellTimestamps _ _) k).isSome
        rw [alookup_aset, alookup_aset]
        by_cases hk' : k = getHexKey (snapPoint b.hexSize mv.x mv.y).1
            (snapPoint b.hexSize mv.x mv.y).2 <;> simp [hk', h₂ k]
      · rw [show (({ b with
              occupiedCells := aset b.occupiedCells _ ((alookup b.occupiedCells _).getD 0 + 1),
              cellTimestamps := aset b.cellTimestamps _ now,
              cellOwners := aset b.cellOwners _ cid,
              cars := _, allLines := _ } : Board)).occupiedCells =
            aset b.occupiedCells
              (getHexKey (snapPoint b.hexSize mv.x mv.y).1 (snapPoint b.hexSize mv.x mv.y).2)
              ((alookup b.occupiedCells
                (getHexKey (snapPoint b.hexSize mv.x mv.y).1 (snapPoint b.hexSize mv.x mv.y).2)).getD 0 + 1)
          from rfl, alookup_aset] at hn
        by_cases hk' : k = getHexKey (snapPoint b.hexSize mv.x mv.y).1
            (snapPoint b.hexSize mv.x mv.y).2
        · rw [if_pos hk'] at hn
          rw [hnone] at hn
          simpa using hn.symm
        · rw [if_neg hk'] at hn
          exact h₃ k n hn

theorem mapsConsistent_spawnCar (b : Board) (strat : Strategy) (seed : CarSeed)
    (draws : List (ℕ × ℕ)) (now : ℚ) (h : MapsConsistent b) :
    MapsConsistent (spawnCar b strat seed draws now).2 := by
  unfold spawnCar
  cases hf : (draws.take 100).find? (fun rc =>
      !isOccupied b.occupiedCells
        (getHexKey (gridPointOf b.hexSize rc.1 rc.2).1 (gridPointOf b.hexSize rc.1 rc.2).2)) with
  | some rc =>
    have hp := List.find?_some hf
    simp only [Bool.not_eq_true'] at hp
    exact mapsConsistent_placeCar b strat seed now _ _ h hp
  | none =>
    dsimp only
    cases hg : (scanCells b).find? (fun g => !isOccupied b.occupiedCells (getHexKey g.1 g.2)) with
    | some g =>
      have hp := List.find?_some hg
      simp only [Bool.not_eq_true'] at hp
      exact mapsConsistent_placeCar b strat seed now _ _ h hp
    | none => exact h

theorem mapsConsistent_removeCarTraces (b : Board) (cid : Nat)
    (h : MapsConsistent b) : MapsConsistent (removeCarTraces b cid) := by
  obtain ⟨h₁, h₂, h₃⟩ := h
  refine ⟨fun k => ?_, fun k => ?_, fun k n hn => ?_⟩
  · show (alookup (aeraseAll b.occupiedCells _) k).isSome ↔
      (alookup (aeraseAll b.cellOwners _) k).isSome
    rw [alookup_aeraseAll, alookup_aeraseAll]
    by_cases hk : k ∈ (b.cellOwners.filter (fun p => p.2 == cid)).map (·.1) <;>
      simp [hk, h₁ k]
  · show (alookup (aeraseAll b.occupiedCells _) k).isSome ↔
      (alookup (aeraseAll b.cellTimestamps _) k).isSome
    rw [alookup_aeraseAll, alookup_aeraseAll]
    by_cases hk : k ∈ (b.cellOwners.filter (fun p => p.2 == cid)).map (·.1) <;>
      simp [hk, h₂ k]
  · rw [show (removeCarTraces b cid).occupiedCells =
        aeraseAll b.occupiedCells ((b.cellOwners.filter (fun p => p.2 == cid)).map (·.1))
        from rfl, alookup_aeraseAll] at hn
    by_cases hk : k ∈ (b.cellOwners.filter (fun p => p.2 == cid)).map (·.1)
    · rw [if_pos hk] at hn; cases hn
    · rw [if_neg hk] at hn; exact h₃ k n hn

theorem mapsConsistent_clearFadedCells (b : Board) (t : ℚ) (alive : List Nat)
    (h : MapsConsistent b) : MapsConsistent (clearFadedCells b t alive) := by
  unfold clearFadedCells
  dsimp only
  split_ifs with hinf hc hlen
  · exact h
  · exact h
  all_goals {
    obtain ⟨h₁, h₂, h₃⟩ := h
    refine ⟨fun k => ?_, fun k => ?_, fun k n hn => ?_⟩
    · show (alookup (aeraseAll b.occupiedCells _) k).isSome ↔
        (alookup (aeraseAll b.cellOwners _) k).isSome
      rw [alookup_aeraseAll, alookup_aeraseAll]
      split_ifs <;> simp [h₁ k]
    · show (alookup (aeraseAll b.occupiedCells _) k).isSome ↔
        (alookup (aeraseAll b.cellTimestamps _) k).isSome
      rw [alookup_aeraseAll, alookup_aeraseAll]
      split_ifs <;> simp [h₂ k]
    · rw [show ∀ m : List (Key × Nat), alookup m k = alookup m k from fun _ => rfl] at hn
      revert hn
      show alookup (aeraseAll b.occupiedCells _) k = some n → n = 1
      rw [alookup_aeraseAll]
      split_ifs
      · intro hn; cases hn
      · exact h₃ k n }

theorem mapsConsistent_mapsEq {b b' : Board}
    (ho : b'.occupiedCells = b.occupiedCells) (ht : b'.cellTimestamps = b.cellTimestamps)
    (hw : b'.cellOwners = b.cellOwners) (h : MapsConsistent b) : MapsConsistent b' := by
  obtain ⟨h₁, h₂, h₃⟩ := h
  exact ⟨fun k => by rw [ho, hw]; exact h₁ k, fun k => by rw [ho, ht]; exact h₂ k,
    fun k n hn => h₃ k n (by rwa [ho] at hn)⟩

theorem mapsConsistent_phase3Go (counts : List (Key × Nat)) (now : ℚ) :
    ∀ (rest done : List Entry) (b : Board), MapsConsistent b →
      MapsConsistent (phase3Go b counts now done rest).1 := by
  intro rest
  induction rest with
  | nil => intro done b h; exact h
  | cons e rest' ih =>
    intro done b h
    unfold phase3Go
    cases hm : e.move with
    | some mv =>
      cases hk : e.snappedDestKey with
      | some k =>
        dsimp only
        split_ifs with hcount
        · exact ih _ _ (mapsConsistent_executeMove b e.carId mv now h)
        · cases hconf : (done ++ e :: rest').filter (fun en =>
              en.snappedDestKey == some k && en.move.isSome) with
          | nil => exact ih _ _ h
          | cons w ws =>
            cases hwm : w.move with
            | some wmv =>
              dsimp only
              rw [hwm]
              exact ih _ _ (mapsConsistent_executeMove b w.carId wmv now h)
            | none =>
              dsimp only
              rw [hwm]
              exact ih _ _ h
      | none =>
        dsimp only
        cases hfind : (updCar b.cars e.carId fun c => { c with stuck := true }).find?
            (fun c => c.id = e.carId) with
        | some car => exact ih _ _ (mapsConsistent_mapsEq rfl rfl rfl h)
        | none => exact ih _ _ (mapsConsistent_mapsEq rfl rfl rfl h)
    | none =>
      dsimp only
      cases hfind : (updCar b.cars e.carId fun c => { c with stuck := true }).find?
          (fun c => c.id = e.carId) with
      | some car => exact ih _ _ (mapsConsistent_mapsEq rfl rfl rfl h)
      | none => exact ih _ _ (mapsConsistent_mapsEq rfl rfl rfl h)

theorem mapsConsistent_tickPhases (b : Board) (rands : List MoveRand) (now : ℚ)
    (h : MapsConsistent b) : MapsConsistent (tickPhases b rands now) := by
  unfold tickPhases
  dsimp only
  exact mapsConsistent_mapsEq rfl rfl rfl
    (mapsConsistent_phase3Go _ now _ [] b h)

theorem mapsConsistent_spawnEvictStep (b : Board) (s₁ : Strategy) (c₁ : CarSeed)
    (d₁ : List (ℕ × ℕ)) (s₂ : Strategy) (c₂ : CarSeed) (d₂ : List (ℕ × ℕ)) (now : ℚ)
    (h : MapsConsistent b) :
    MapsConsistent (spawnEvictStep b s₁ c₁ d₁ s₂ c₂ d₂ now) := by
  unfold spawnEvictStep
  dsimp only
  have h₁ : MapsConsistent (spawnCar b s₁ c₁ d₁ now).2 :=
    mapsConsistent_spawnCar b s₁ c₁ d₁ now h
  split_ifs with hcond
  · cases ho : oldestDeadCar (spawnCar b s₁ c₁ d₁ now).2.deadCarIds with
    | some cid =>
      exact mapsConsistent_mapsEq rfl rfl rfl
        (mapsConsistent_spawnCar _ s₂ c₂ d₂ now
          (mapsConsistent_removeCarTraces _ cid h₁))
    | none => exact mapsConsistent_mapsEq rfl rfl rfl h₁
  · exact mapsConsistent_mapsEq rfl rfl rfl h₁

theorem mapsConsistent_mkBoard (opts : Options) (w h : ℚ) :
    MapsConsistent (mkBoard opts w h) := by
  refine ⟨fun k => Iff.rfl, fun k => Iff.rfl, fun k n hn => ?_⟩
  cases hn

/-- Every reachable state satisfies the map-consistency invariant. -/
theorem mapsConsistent_of_reach (b : Board) (h : Reach b) : MapsConsistent b := by
  induction h with
  | init opts w h => exact mapsConsistent_mkBoard opts w h
  | spawn b strat seed draws now _ ih => exact mapsConsistent_spawnCar b strat seed draws now ih
  | exec b cid mv now _ ih => exact mapsConsistent_executeMove b cid mv now ih
  | removeTraces b cid _ ih => exact mapsConsistent_removeCarTraces b cid ih
  | clearFaded b t alive _ ih => exact mapsConsistent_clearFadedCells b t alive ih
  | tick b rands now _ ih => exact mapsConsistent_tickPhases b rands now ih
  | spawnEvict b s₁ c₁ d₁ s₂ c₂ d₂ now _ ih =>
      exact mapsConsistent_spawnEvictStep b s₁ c₁ d₁ s₂ c₂ d₂ now ih

theorem executeMove_refusal (b : Board) (cid : Nat) (mv : Move) (now : ℚ)
    (hocc : isOccupied b.occupiedCells (snappedKey b.hexSize mv.x mv.y) = true) :
    (executeMove b cid mv now).occupiedCells = b.occupiedCells ∧
    (executeMove b cid mv now).cellOwners = b.cellOwners ∧
    (executeMove b cid mv now).cellTimestamps = b.cellTimestamps := by
  unfold executeMove
  cases hf : b.cars.find? (fun c => c.id = cid) with
  | none => exact ⟨rfl, rfl, rfl⟩
  | some car =>
    dsimp only
    split_ifs with h
    · exact ⟨rfl, rfl, rfl⟩
    · exact absurd hocc h

theorem executeMove_owner_cases (b : Board) (cid : Nat) (mv : Move) (now : ℚ)
    (k : Key) (c : Nat)
    (hl : alookup (executeMove b cid mv now).cellOwners k = some c) :
    alookup b.cellOwners k = some c ∨ isOccupied b.occupiedCells k = false := by
  revert hl
  unfold executeMove
  cases hf : b.cars.find? (fun c => c.id = cid) with
  | none => exact fun hl => Or.inl hl
  | some car =>
    dsimp only
    split_ifs with h
    · exact fun hl => Or.inl hl
    · intro hl
      rw [show (({ b with
            occupiedCells := aset b.occupiedCells _ ((alookup b.occupiedCells _).getD 0 + 1),
            cellTimestamps := aset b.cellTimestamps _ now,
            cellOwners := aset b.cellOwners
              (getHexKey (snapPoint b.hexSize mv.x mv.y).1 (snapPoint b.hexSize mv.x mv.y).2) cid,
            cars := _, allLines := _ } : Board)).cellOwners =
          aset b.cellOwners
            (getHexKey (snapPoint b.hexSize mv.x mv.y).1 (snapPoint b.hexSize mv.x mv.y).2) cid
        from rfl, alookup_aset] at hl
      by_cases hk : k = getHexKey (snapPoint b.hexSize mv.x mv.y).1 (snapPoint b.hexSize mv.x mv.y).2
      · right
        rw [hk]
        exact Bool.of_not_eq_true h
      · rw [if_neg hk] at hl
        exact Or.inl hl

theorem placeCar_owner_cases (b : Board) (strat : Strategy) (seed : CarSeed)
    (now gx gy : ℚ) (k : Key) (c : Nat)
    (hfree : isOccupied b.occupiedCells (getHexKey gx gy) = false)
    (hl : alookup (placeCar b strat seed now gx gy).cellOwners k = some c) :
    alookup b.cellOwners k = some c ∨
      (isOccupied b.occupiedCells k = false ∧ c = b.nextCarId) := by
  rw [show (placeCar b strat seed now gx gy).cellOwners =
      aset b.cellOwners (getHexKey gx gy) b.nextCarId from rfl, alookup_aset] at hl
  by_cases hk : k = getHexKey gx gy
  · rw [if_pos hk] at hl
    right
    exact ⟨hk ▸ hfree, (Option.some_inj.mp hl).symm⟩
  · rw [if_neg hk] at hl
    exact Or.inl hl

theorem spawnCar_owner_cases (b : Board) (strat : Strategy) (seed : CarSeed)
    (draws : List (ℕ × ℕ)) (now : ℚ) (k : Key) (c : Nat)
    (hl : alookup (spawnCar b strat seed draws now).2.cellOwners k = some c) :
    alookup b.cellOwners k = some c ∨
      (isOccupied b.occupiedCells k = false ∧ c = b.nextCarId) := by
  revert hl
  unfold spawnCar
  cases hf : (draws.take 100).find? (fun rc =>
      !isOccupied b.occupiedCells
        (getHexKey (gridPointOf b.hexSize rc.1 rc.2).1 (gridPointOf b.hexSize rc.1 rc.2).2)) with
  | some rc =>
    have hp := List.find?_some hf
    simp only [Bool.not_eq_true'] at hp
    exact placeCar_owner_cases b strat seed now _ _ k c hp
  | none =>
    dsimp only
    cases hg : (scanCells b).find? (fun g => !isOccupied b.occupiedCells (getHexKey g.1 g.2)) with
    | some g =>
      have hp := List.find?_some hg
      simp only [Bool.not_eq_true'] at hp
      exact placeCar_owner_cases b strat seed now _ _ k c hp
    | none => exact fun hl => Or.inl hl

/-- **C1** (no double occupancy).  (1) `executeMove` refuses to commit into an
already-occupied snapped key: the three cell maps are left unchanged.  (2)
`executeMove` grants a key's ownership only if that binding already existed
or the key was unoccupied before the call.  (3) `spawnCar` grants ownership
only of a previously unoccupied key, and only to the freshly allocated agent
id.  (4) In every reachable state, every occupancy count stored in the table
is exactly 1 — so at commit time each canonical cell key is bound to at most
the one owner recorded in `cellOwners` (a single-valued map). -/
theorem no_double_occupancy :
    (∀ (b : Board) (cid : Nat) (mv : Move) (now : ℚ),
      isOccupied b.occupiedCells (snappedKey b.hexSize mv.x mv.y) = true →
      (executeMove b cid mv now).occupiedCells = b.occupiedCells ∧
      (executeMove b cid mv now).cellOwners = b.cellOwners ∧
      (executeMove b cid mv now).cellTimestamps = b.cellTimestamps) ∧
    (∀ (b : Board) (cid : Nat) (mv : Move) (now : ℚ) (k : Key) (c : Nat),
      alookup (executeMove b cid mv now).cellOwners k = some c →
      alookup b.cellOwners k = some c ∨ isOccupied b.occupiedCells k = false) ∧
    (∀ (b : Board) (strat : Strategy) (seed : CarSeed) (draws : List (ℕ × ℕ)) (now : ℚ)
      (k : Key) (c : Nat),
      alookup (spawnCar b strat seed draws now).2.cellOwners k = some c →
      alookup b.cellOwners k = some c ∨
        (isOccupied b.occupiedCells k = false ∧ c = b.nextCarId)) ∧
    (∀ b : Board, Reach b → ∀ k n, alookup b.occupiedCells k = some n → n = 1) :=
  ⟨executeMove_refusal, executeMove_owner_cases, spawnCar_owner_cases,
    fun b h => (mapsConsistent_of_reach b h).2.2⟩

/-- A concrete board whose origin cell is occupied (owned by agent 0). -/
def demoBoardC1 : Board :=
  { occupiedCells := [((0, 0), 1)]
    cellTimestamps := [((0, 0), 0)]
    cellOwners := [((0, 0), 0)] }

/-- A move whose snapped destination is the origin cell. -/
def demoMoveC1 : Move := { x := 0, y := 0, direction := 0 }

theorem no_double_occupancy_witness :
    isOccupied demoBoardC1.occupiedCells
      (snappedKey demoBoardC1.hexSize demoMoveC1.x demoMoveC1.y) = true ∧
    (executeMove demoBoardC1 1 demoMoveC1 5).occupiedCells = demoBoardC1.occupiedCells := by
  have hocc : isOccupied demoBoardC1.occupiedCells
      (snappedKey demoBoardC1.hexSize demoMoveC1.x demoMoveC1.y) = true := by
    norm_num [demoBoardC1, demoMoveC1, isOccupied, snappedKey, snapPoint, jsRound,
      rowHeightOf, getHexKey, alookup]
  exact ⟨hocc, (no_double_occupancy.1 demoBoardC1 1 demoMoveC1 5 hocc).1⟩

/-- **C10** (implicit map-consistency invariant).  After construction and
after every state-touching operation (`spawnCar`, `executeMove`,
`removeCarTraces`, `clearFadedCells`, and whole tick/spawn steps composed of
them), the maps `occupiedCells`, `cellTimestamps` and `cellOwners` hold
exactly the same keys, and every value in `occupiedCells` equals 1. -/
theorem maps_consistent_invariant (b : Board) (h : Reach b) : MapsConsistent b :=
  mapsConsistent_of_reach b h

theorem maps_consistent_invariant_witness :
    Reach (mkBoard {} 1000 1000) ∧ MapsConsistent (mkBoard {} 1000 1000) :=
  ⟨Reach.init {} 1000 1000, maps_consistent_invariant _ (Reach.init {} 1000 1000)⟩

/-! ### Fitness accumulation (claim C7) -/

/-- The cars of strategy `s` retired in this PHASE 4 run, in processing
order. -/
def retiredOf (b : Board) (s : Strategy) : List Car :=
  ((b.cars.filter fun c => c.stuck).reverse).filter fun c => decide (c.strategy = s)

theorem foldl_bumpFitness (now : ℚ) (cars : List Car) (f : Strategy → FitnessAgg)
    (s : Strategy) :
    ((cars.foldl (fun f c => bumpFitness f c ((now - c.birthTime) / 1000)) f) s).count =
      (f s).count + (cars.filter fun c => decide (c.strategy = s)).length ∧
    ((cars.foldl (fun f c => bumpFitness f c ((now - c.birthTime) / 1000)) f) s).totalLifetime =
      (f s).totalLifetime +
        (((cars.filter fun c => decide (c.strategy = s)).map
          fun c => (now - c.birthTime) / 1000).sum) ∧
    ((cars.foldl (fun f c => bumpFitness f c ((now - c.birthTime) / 1000)) f) s).totalDistance =
      (f s).totalDistance +
        (((cars.filter fun c => decide (c.strategy = s)).map fun c => c.distanceTraveled).sum) ∧
    ((cars.foldl (fun f c => bumpFitness f c ((now - c.birthTime) / 1000)) f) s).totalCells =
      (f s).totalCells +
        (((cars.filter fun c => decide (c.strategy = s)).map
          fun c => (c.cellsVisited : ℚ)).sum) := by
  induction cars generalizing f with
  | nil => simp
  | cons c t ih =>
    obtain ⟨ih₁, ih₂, ih₃, ih₄⟩ := ih (bumpFitness f c ((now - c.birthTime) / 1000))
    by_cases hc : c.strategy = s
    · have hfc : (c :: t).filter (fun c => decide (c.strategy = s)) =
          c :: t.filter (fun c => decide (c.strategy = s)) := by simp [hc]
      have hb : bumpFitness f c ((now - c.birthTime) / 1000) s =
          { totalLifetime := (f s).totalLifetime + (now - c.birthTime) / 1000
            count := (f s).count + 1
            totalDistance := (f s).totalDistance + c.distanceTraveled
            totalCells := (f s).totalCells + (c.cellsVisited : ℚ) } := by
        unfold bumpFitness
        rw [if_pos hc.symm, hc]
      rw [List.foldl_cons] at *
      rw [hfc]
      refine ⟨?_, ?_, ?_, ?_⟩
      · rw [ih₁, hb]
        simp only [List.length_cons]
        omega
      · rw [ih₂, hb]
        simp only [List.map_cons, List.sum_cons]
        ring
      · rw [ih₃, hb]
        simp only [List.map_cons, List.sum_cons]
        ring
      · rw [ih₄, hb]
        simp only [List.map_cons, List.sum_cons]
        ring
    · have hfc : (c :: t).filter (fun c => decide (c.strategy = s)) =
          t.filter (fun c => decide (c.strategy = s)) := by simp [hc]
      have hb : bumpFitness f c ((now - c.birthTime) / 1000) s = f s := by
        unfold bumpFitness
        rw [if_neg (fun h : s = c.strategy => hc h.symm)]
      rw [List.foldl_cons] at *
      rw [hfc, ih₁, ih₂, ih₃, ih₄, hb]
      exact ⟨rfl, rfl, rfl, rfl⟩

theorem phase4_fitness (b : Board) (now : ℚ) (s : Strategy) :
    ((phase4 b now).strategyFitness s).count =
      (b.strategyFitness s).count + (retiredOf b s).length ∧
    ((phase4 b now).strategyFitness s).totalLifetime =
      (b.strategyFitness s).totalLifetime +
        (((retiredOf b s).map fun c => (now - c.birthTime) / 1000).sum) ∧
    ((phase4 b now).strategyFitness s).totalDistance =
      (b.strategyFitness s).totalDistance +
        (((retiredOf b s).map fun c => c.distanceTraveled).sum) ∧
    ((phase4 b now).strategyFitness s).totalCells =
      (b.strategyFitness s).totalCells +
        (((retiredOf b s).map fun c => (c.cellsVisited : ℚ)).sum) :=
  foldl_bumpFitness now ((b.cars.filter fun c : Car => c.stuck).reverse) b.strategyFitness s

theorem retiredOf_mem {b : Board} {s : Strategy} {c : Car} (hc : c ∈ retiredOf b s) :
    c ∈ b.cars ∧ c.stuck = true ∧ c.strategy = s := by
  unfold retiredOf at hc
  rw [List.mem_filter] at hc
  obtain ⟨hrev, hs⟩ := hc
  rw [List.mem_reverse, List.mem_filter] at hrev
  exact ⟨hrev.1, hrev.2, of_decide_eq_true hs⟩

/-- **C7** (fitness monotonicity).  The per-strategy aggregates are never
touched by `spawnCar`, `executeMove`, `removeCarTraces` or
`clearFadedCells`; a PHASE 4 run adds, for each strategy, exactly one
`count` increment per retiring agent of that strategy, and that agent's
lifetime, distance and cells-visited to the three totals; and when every
retiring agent has non-negative lifetime and distance (birth before `now`),
all four aggregates are non-decreasing. -/
theorem fitness_monotone :
    (∀ (b : Board) (strat : Strategy) (seed : CarSeed) (draws : List (ℕ × ℕ)) (now : ℚ),
      (spawnCar b strat seed draws now).2.strategyFitness = b.strategyFitness) ∧
    (∀ (b : Board) (cid : Nat) (mv : Move) (now : ℚ),
      (executeMove b cid mv now).strategyFitness = b.strategyFitness) ∧
    (∀ (b : Board) (cid : Nat),
      (removeCarTraces b cid).strategyFitness = b.strategyFitness) ∧
    (∀ (b : Board) (t : ℚ) (alive : List Nat),
      (clearFadedCells b t alive).strategyFitness = b.strategyFitness) ∧
    (∀ (b : Board) (now : ℚ) (s : Strategy),
      ((phase4 b now).strategyFitness s).count =
        (b.strategyFitness s).count + (retiredOf b s).length ∧
      ((phase4 b now).strategyFitness s).totalLifetime =
        (b.strategyFitness s).totalLifetime +
          (((retiredOf b s).map fun c => (now - c.birthTime) / 1000).sum) ∧
      ((phase4 b now).strategyFitness s).totalDistance =
        (b.strategyFitness s).totalDistance +
          (((retiredOf b s).map fun c => c.distanceTraveled).sum) ∧
      ((phase4 b now).strategyFitness s).totalCells =
        (b.strategyFitness s).totalCells +
          (((retiredOf b s).map fun c => (c.cellsVisited : ℚ)).sum)) ∧
    (∀ (b : Board) (now : ℚ) (s : Strategy),
      (∀ c ∈ b.cars, c.stuck = true → c.birthTime ≤ now ∧ 0 ≤ c.distanceTraveled) →
      (b.strategyFitness s).count ≤ ((phase4 b now).strategyFitness s).count ∧
      (b.strategyFitness s).totalLifetime ≤ ((phase4 b now).strategyFitness s).totalLifetime ∧
      (b.strategyFitness s).totalDistance ≤ ((phase4 b now).strategyFitness s).totalDistance ∧
      (b.strategyFitness s).totalCells ≤ ((phase4 b now).strategyFitness s).totalCells) := by
  refine ⟨?_, ?_, ?_, ?_, phase4_fitness, ?_⟩
  · intro b strat seed draws now
    unfold spawnCar
    cases (draws.take 100).find? (fun rc =>
        !isOccupied b.occupiedCells
          (getHexKey (gridPointOf b.hexSize rc.1 rc.2).1 (gridPointOf b.hexSize rc.1 rc.2).2)) with
    | some rc => rfl
    | none =>
      dsimp only
      cases (scanCells b).find? (fun g => !isOccupied b.occupiedCells (getHexKey g.1 g.2)) with
      | some g => rfl
      | none => rfl
  · intro b cid mv now
    unfold executeMove
    cases b.cars.find? (fun c => c.id = cid) with
    | none => rfl
    | some car =>
      dsimp only
      split_ifs <;> rfl
  · intro b cid; rfl
  · intro b t alive
    unfold clearFadedCells
    dsimp only
    split_ifs <;> rfl
  · intro b now s hstats
    obtain ⟨h₁, h₂, h₃, h₄⟩ := phase4_fitness b now s
    refine ⟨by omega, ?_, ?_, ?_⟩
    · rw [h₂]
      have : 0 ≤ (((retiredOf b s).map fun c => (now - c.birthTime) / 1000).sum) := by
        apply List.sum_nonneg
        intro x hx
        rw [List.mem_map] at hx
        obtain ⟨c, hc, hcx⟩ := hx
        obtain ⟨hmem, hstuck, -⟩ := retiredOf_mem hc
        have := (hstats c hmem hstuck).1
        rw [← hcx]
        exact div_nonneg (by linarith) (by norm_num)
      linarith
    · rw [h₃]
      have : 0 ≤ (((retiredOf b s).map fun c => c.distanceTraveled).sum) := by
        apply List.sum_nonneg
        intro x hx
        rw [List.mem_map] at hx
        obtain ⟨c, hc, hcx⟩ := hx
        obtain ⟨hmem, hstuck, -⟩ := retiredOf_mem hc
        have := (hstats c hmem hstuck).2
        rw [← hcx]
        exact this
      linarith
    · rw [h₄]
      have : 0 ≤ (((retiredOf b s).map fun c => (c.cellsVisited : ℚ)).sum) := by
        apply List.sum_nonneg
        intro x hx
        rw [List.mem_map] at hx
        obtain ⟨c, hc, hcx⟩ := hx
        rw [← hcx]
        positivity
      linarith

/-- A retired spiral agent used to instantiate the fitness theorem. -/
def demoCarC7 : Car :=
  { x := 0, y := 0, hexSize := 100, stuck := true, id := 0, birthTime := 1000,
    distanceTraveled := 5, cellsVisited := 3, strategy := .spiral,
    preferredTurnDirection := .right, currentDirection := 0 }

def demoBoardC7 : Board := { cars := [demoCarC7] }

theorem fitness_monotone_witness :
    (∀ c ∈ demoBoardC7.cars, c.stuck = true → c.birthTime ≤ 2000 ∧ 0 ≤ c.distanceTraveled) ∧
    (demoBoardC7.strategyFitness .spiral).totalLifetime ≤
      ((phase4 demoBoardC7 2000).strategyFitness .spiral).totalLifetime := by
  have hyp : ∀ c ∈ demoBoardC7.cars, c.stuck = true →
      c.birthTime ≤ 2000 ∧ 0 ≤ c.distanceTraveled := by
    intro c hc _
    rw [show demoBoardC7.cars = [demoCarC7] from rfl, List.mem_singleton] at hc
    subst hc
    norm_num [demoCarC7]
  exact ⟨hyp, (fitness_monotone.2.2.2.2.2 demoBoardC7 2000 .spiral hyp).2.1⟩

/-! ### The two-claimant conflict scenario (claim C2) -/

/-- Agent 0: at the origin, heading East, wall-follower with right
preference; its sharp-right target is blocked, so it intends East. -/
def carA : Car :=
  { x := 0, y := 0, hexSize := 100, id := 0, birthTime := 0,
    strategy := .wallFollower, preferredTurnDirection := .right, currentDirection := 0 }

/-- Agent 1: two cells East of the origin, heading West, wall-follower with
right preference; its sharp-right target is out of bounds, so it intends
West — the same destination cell as agent 0. -/
def carB : Car :=
  { x := 200, y := 0, hexSize := 100, id := 1, birthTime := 0,
    strategy := .wallFollower, preferredTurnDirection := .right, currentDirection := 3 }

/-- A board on which, in one tick, both agents' first legal moves target the
cell (100, 0): agent 0 from the West, agent 1 from the East. -/
def conflictBoard : Board :=
  { occupiedCells := [((0, 0), 1), ((200, 0), 1), ((50, 87), 1)]
    cellTimestamps := [((0, 0), 0), ((200, 0), 0), ((50, 87), 0)]
    cellOwners := [((0, 0), 0), ((200, 0), 1), ((50, 87), 0)]
    cars := [carA, carB] }

/-- Agent 0's intended move on `conflictBoard`. -/
def mvA : Move := { x := 100, y := 0, direction := 0, oldDirection := 0, is180 := false }

/-- Agent 1's intended move on `conflictBoard`. -/
def mvB : Move := { x := 100, y := 0, direction := 3, oldDirection := 3, is180 := false }

theorem cb_occ : conflictBoard.occupiedCells = [((0, 0), 1), ((200, 0), 1), ((50, 87), 1)] := rfl

theorem cb_w : conflictBoard.canvasWidth = 1000 := rfl

theorem cb_h : conflictBoard.canvasHeight = 1000 := rfl

theorem cb_hex : conflictBoard.hexSize = 100 := rfl

theorem cb_lines : conflictBoard.allLines = [] := rfl

theorem cb_cars : conflictBoard.cars = [carA, carB] := rfl

theorem tryDirection_A1 :
    tryDirection carA [((0, 0), 1), ((200, 0), 1), ((50, 87), 1)] 1000 1000 [] 1 = none := by
  norm_num [tryDirection, sampleBlocked, linesIntersect, isOccupied, alookup,
    snapPoint, getHexKey, jsRound, rowHeightOf, hexDirections, carA, Prod.ext_iff]

theorem tryDirection_A0 :
    tryDirection carA [((0, 0), 1), ((200, 0), 1), ((50, 87), 1)] 1000 1000 [] 0 =
      some ⟨100, 0, 0⟩ := by
  norm_num [tryDirection, sampleBlocked, linesIntersect, isOccupied, alookup,
    snapPoint, getHexKey, jsRound, rowHeightOf, hexDirections, carA, Prod.ext_iff]

theorem tryDirection_B4 :
    tryDirection carB [((0, 0), 1), ((200, 0), 1), ((50, 87), 1)] 1000 1000 [] 4 = none := by
  norm_num [tryDirection, sampleBlocked, linesIntersect, isOccupied, alookup,
    snapPoint, getHexKey, jsRound, rowHeightOf, hexDirections, carB, Prod.ext_iff]

theorem tryDirection_B3 :
    tryDirection carB [((0, 0), 1), ((200, 0), 1), ((50, 87), 1)] 1000 1000 [] 3 =
      some ⟨100, 0, 3⟩ := by
  norm_num [tryDirection, sampleBlocked, linesIntersect, isOccupied, alookup,
    snapPoint, getHexKey, jsRound, rowHeightOf, hexDirections, carB, Prod.ext_iff]

theorem calculateMove_A : calculateMove conflictBoard carA {} = some mvA := by
  rw [calculateMove]
  rw [show carA.strategy = .wallFollower from rfl,
    show carA.currentDirection = 0 from rfl,
    show carA.preferredTurnDirection = TurnDir.right from rfl,
    show calculatePriorities .wallFollower 0 .right {} = [1, 0, 2, 3, 4, 5] from rfl,
    cb_occ, cb_w, cb_h, cb_lines]
  simp only [List.findSome?]
  rw [tryDirection_A1]
  simp only [List.findSome?]
  rw [tryDirection_A0]
  norm_num [scoreMove, mvA]

theorem calculateMove_B : calculateMove conflictBoard carB {} = some mvB := by
  rw [calculateMove]
  rw [show carB.strategy = .wallFollower from rfl,
    show carB.currentDirection = 3 from rfl,
    show carB.preferredTurnDirection = TurnDir.right from rfl,
    show calculatePriorities .wallFollower 3 .right {} = [4, 3, 5, 0, 1, 2] from rfl,
    cb_occ, cb_w, cb_h, cb_lines]
  simp only [List.findSome?]
  rw [tryDirection_B4]
  simp only [List.findSome?]
  rw [tryDirection_B3]
  norm_num [scoreMove, mvB]

theorem phase1_conflict :
    phase1 conflictBoard [{}, {}] =
      [{ carId := 0, move := some mvA }, { carId := 1, move := some mvB }] := by
  rw [phase1, cb_cars]
  rw [show (([carA, carB].filter fun c => !c.stuck)) = [carA, carB] from rfl]
  simp only [List.zip, List.zipWith, List.map]
  rw [calculateMove_A, calculateMove_B]
  rfl

/-- Agent 0's entry after PHASE 2 snapping. -/
def entA : Entry := { carId := 0, move := some mvA, snappedDestKey := some (100, 0) }

/-- Agent 1's entry after PHASE 2 snapping. -/
def entB : Entry := { carId := 1, move := some mvB, snappedDestKey := some (100, 0) }

theorem phase2_conflict :
    phase2 conflictBoard [{ carId := 0, move := some mvA }, { carId := 1, move := some mvB }] =
      [entA, entB] := by
  have hsk : snappedKey 100 100 0 = (100, 0) := by
    norm_num [snappedKey, snapPoint, getHexKey, jsRound, rowHeightOf]
  rw [phase2]
  simp only [List.map, cb_hex]
  rw [show mvA.x = 100 from rfl, show mvA.y = 0 from rfl,
    show mvB.x = 100 from rfl, show mvB.y = 0 from rfl, hsk]
  rfl

theorem destCounts_conflict : destCounts [entA, entB] = [((100, 0), 2)] := by
  rw [destCounts]
  simp only [List.foldl, entA, entB]
  rfl

/-- Agent 0 after committing its move to (100, 0). -/
def carAafter : Car :=
  { x := 100, y := 0, hexSize := 100, id := 0, birthTime := 0,
    distanceTraveled := 10000, cellsVisited := 1, strategy := .wallFollower,
    preferredTurnDirection := .right, previousDirection := some 0, currentDirection := 0 }

/-- Agent 1 after the defensive commit check marks it stuck. -/
def carBstuck : Car :=
  { x := 200, y := 0, hexSize := 100, stuck := true, id := 1, birthTime := 0,
    strategy := .wallFollower, preferredTurnDirection := .right, currentDirection := 3 }

/-- The segment drawn by agent 0's committed move. -/
def seg1 : Seg :=
  { x1 := 0, y1 := 0, x2 := 100, y2 := 0, carId := 0, hueOffset := 0,
    birthTime := 0, timestamp := 1000, segmentIndex := 0 }

/-- The board after agent 0's move commits. -/
def board1 : Board :=
  { occupiedCells := [((0, 0), 1), ((200, 0), 1), ((50, 87), 1), ((100, 0), 1)]
    cellTimestamps := [((0, 0), 0), ((200, 0), 0), ((50, 87), 0), ((100, 0), 1000)]
    cellOwners := [((0, 0), 0), ((200, 0), 1), ((50, 87), 0), ((100, 0), 0)]
    allLines := [seg1]
    cars := [carAafter, carB] }

/-- The board after agent 1's re-invoked `executeMove` hits the occupied
destination and marks it stuck. -/
def board2 : Board :=
  { occupiedCells := [((0, 0), 1), ((200, 0), 1), ((50, 87), 1), ((100, 0), 1)]
    cellTimestamps := [((0, 0), 0), ((200, 0), 0), ((50, 87), 0), ((100, 0), 1000)]
    cellOwners := [((0, 0), 0), ((200, 0), 1), ((50, 87), 0), ((100, 0), 0)]
    allLines := [seg1]
    cars := [carAafter, carBstuck] }

theorem exec_A : executeMove conflictBoard 0 mvA 1000 = board1 := by
  norm_num [executeMove, conflictBoard, carA, carB, mvA, updCar, isOccupied, alookup, aset,
    snapPoint, getHexKey, jsRound, rowHeightOf, board1, carAafter, seg1, Prod.ext_iff,
    List.find?, List.filter, Board.mk.injEq, Car.mk.injEq, Seg.mk.injEq]

theorem exec_B : executeMove board1 1 mvB 1000 = board2 := by
  norm_num [executeMove, board1, board2, carAafter, carB, carBstuck, mvB, updCar,
    isOccupied, alookup, aset, snapPoint, getHexKey, jsRound, rowHeightOf, seg1,
    Prod.ext_iff, List.find?, List.filter, Board.mk.injEq, Car.mk.injEq]

theorem phase3_step1 :
    phase3Go conflictBoard [((100, 0), 2)] 1000 [] [entA, entB] =
      phase3Go board1 [((100, 0), 2)] 1000
        [{ carId := 0, move := none, snappedDestKey := some (100, 0) }] [entB] := by
  conv_lhs => rw [phase3Go]
  norm_num [entA, entB, alookup, Prod.ext_iff]
  rw [exec_A]
  exact ⟨rfl, rfl⟩

theorem phase3_step2 :
    phase3Go board1 [((100, 0), 2)] 1000
        [{ carId := 0, move := none, snappedDestKey := some (100, 0) }] [entB] =
      phase3Go board2 [((100, 0), 2)] 1000
        [{ carId := 0, move := none, snappedDestKey := some (100, 0) },
         { carId := 1, move := none, snappedDestKey := some (100, 0) }] [] := by
  conv_lhs => rw [phase3Go]
  norm_num [entB, alookup, Prod.ext_iff]
  rw [exec_B]
  exact ⟨rfl, rfl⟩

theorem phase3_conflict :
    (phase3Go conflictBoard [((100, 0), 2)] 1000 [] [entA, entB]).1 = board2 := by
  rw [phase3_step1, phase3_step2, phase3Go]

/-- **C2, evaluation at the failing input.**  Running one full tick (PHASES
1–4) on `conflictBoard`, where both agents' snapped intended moves target
cell (100, 0): agent 0 — first in evaluation order — commits and moves to
(100, 0); but agent 1, the losing claimant, does not merely stay put for the
tick: the conflict branch re-invokes `executeMove` on it, the destination is
now occupied, the defensive commit check marks it stuck, and PHASE 4
retires it — it is removed from the active list, its death is recorded in
`deadCarIds`, and its strategy's fitness `count` is bumped. -/
theorem conflict_loser_retired :
    ((tickPhases conflictBoard [{}, {}] 1000).cars.map fun c => (c.id, c.x, c.y)) =
      [(0, 100, 0)] ∧
    alookup (tickPhases conflictBoard [{}, {}] 1000).deadCarIds 1 = some 1000 ∧
    ((tickPhases conflictBoard [{}, {}] 1000).strategyFitness .wallFollower).count = 1 := by
  have ht : tickPhases conflictBoard [{}, {}] 1000 = phase4 board2 1000 := by
    rw [tickPhases]
    rw [phase1_conflict, phase2_conflict, destCounts_conflict, phase3_conflict]
  rw [ht]
  refine ⟨?_, ?_, ?_⟩ <;>
    norm_num [phase4, board2, carAafter, carBstuck, bumpFitness, aset, alookup,
      List.filter, List.map]

/-! ### Constructor option handling (claim C9) -/

/-- **C9, counterexample.**  The constructor performs no validation:
constructing with `stepDelay = -5` and `spawnDelay = -7` succeeds and stores
the negative values verbatim — there is no rejection of malformed
configuration. -/
theorem constructor_accepts_negative_delays :
    (mkBoard { stepDelay := some (-5), spawnDelay := some (-7) } 1000 1000).stepDelay = -5 ∧
    (mkBoard { stepDelay := some (-5), spawnDelay := some (-7) } 1000 1000).spawnDelay = -7 ∧
    (mkBoard { stepDelay := some (-5), spawnDelay := some (-7) } 1000 1000).stepDelay < 0 := by
  refine ⟨rfl, rfl, by norm_num [mkBoard]⟩

/-- **C9, amended.**  Construction never fails: every `!== undefined` option
(`stepDelay`, `spawnDelay`, `traceLifetime`, `fadeDuration`) is stored
verbatim whenever supplied — negative values included — with its default
used only when the option is absent, and the `||`-defaulted `hexSize` falls
back to its default on the falsy value 0. -/
theorem constructor_stores_options_verbatim (opts : Options) (w h : ℚ) :
    (∀ q, opts.stepDelay = some q → (mkBoard opts w h).stepDelay = q) ∧
    (∀ q, opts.spawnDelay = some q → (mkBoard opts w h).spawnDelay = q) ∧
    (∀ q, opts.traceLifetime = some q → (mkBoard opts w h).traceLifetime = q) ∧
    (∀ q, opts.fadeDuration = some q → (mkBoard opts w h).fadeDuration = q) ∧
    (opts.stepDelay = none → (mkBoard opts w h).stepDelay = 10) ∧
    (opts.spawnDelay = none → (mkBoard opts w h).spawnDelay = 100) ∧
    (opts.hexSize = some 0 → (mkBoard opts w h).hexSize = 100) := by
  refine ⟨fun q hq => ?_, fun q hq => ?_, fun q hq => ?_, fun q hq => ?_,
    fun hq => ?_, fun hq => ?_, fun hq => ?_⟩ <;> simp [mkBoard, hq]

theorem constructor_stores_options_verbatim_witness :
    ({ stepDelay := some (-5) } : Options).stepDelay = some (-5) ∧
    (mkBoard { stepDelay := some (-5) } 1000 1000).stepDelay = -5 :=
  ⟨rfl, (constructor_stores_options_verbatim { stepDelay := some (-5) } 1000 1000).1 (-5) rfl⟩

/-! ### The pruning frame bug (claim C6) -/

/-- A segment belonging to the live agent with id 0. -/
def segLive0 : Seg := { x1 := 100, y1 := 0, x2 := 200, y2 := 0, carId := 0 }

/-- A segment belonging to the dead, fully faded agent 1. -/
def segDead1 : Seg := { x1 := 300, y1 := 0, x2 := 400, y2 := 0, carId := 1 }

/-- A segment belonging to the live agent with id 2. -/
def segLive2 : Seg := { x1 := 500, y1 := 0, x2 := 600, y2 := 0, carId := 2 }

/-- A fading-mode board on its 10th cleanup frame: agent 1 is dead and fully
faded (death at 0, current time 5000 > (2+1)·1000) and owns one cell;
agents 0 and 2 are alive and own one segment each. -/
def fadeBugBoard : Board :=
  { occupiedCells := [((0, 0), 1)]
    cellTimestamps := [((0, 0), 0)]
    cellOwners := [((0, 0), 1)]
    allLines := [segLive0, segDead1, segLive2]
    deadCarIds := [(1, 0)]
    cleanupFrameCounter := 9 }

/-- **C6, evaluation at the failing input.**  A `clearFadedCells` run that
prunes the fully faded dead agent 1 also deletes the segment of the *live*
agent with id 0: the keep-filter `line.carId && !deadCarIdsToCleanup.has(...)`
treats the id 0 as falsy, so only agent 2's segment survives, although both
0 and 2 are alive and only agent 1's trace should have been pruned. -/
theorem clearFadedCells_drops_live_agent0_segments :
    (clearFadedCells fadeBugBoard 5000 [0, 2]).allLines = [segLive2] ∧
    segLive0 ∈ fadeBugBoard.allLines ∧
    segLive0.carId ∈ ([0, 2] : List Nat) := by
  refine ⟨?_, by norm_num [fadeBugBoard], by norm_num [segLive0]⟩
  norm_num [clearFadedCells, fadeBugBoard, segLive0, segDead1, segLive2, alookup,
    aerase, aeraseAll, Prod.ext_iff, List.filter]

/-! ### Spawn exhaustion and eviction (claim C8) -/

theorem oldestDead_foldl_spec (l : List (Nat × ℚ)) :
    ∀ (acc : Option (Nat × ℚ)) (r : Nat × ℚ),
      l.foldl (fun best p =>
        match best with
        | none => some p
        | some q => if p.2 < q.2 then some p else best) acc = some r →
      (r ∈ l ∨ acc = some r) ∧ (∀ p ∈ l, r.2 ≤ p.2) ∧
        (∀ q, acc = some q → r.2 ≤ q.2) := by
  induction l with
  | nil =>
    intro acc r h
    simp only [List.foldl_nil] at h
    refine ⟨Or.inr h, by simp, fun q hq => ?_⟩
    rw [hq] at h
    rw [Option.some_inj.mp h]
  | cons p t ih =>
    intro acc r h
    rw [List.foldl_cons] at h
    cases acc with
    | none =>
      dsimp only at h
      obtain ⟨hmem, hminT, hacc⟩ := ih (some p) r h
      refine ⟨?_, ?_, fun q hq => by cases hq⟩
      · rcases hmem with hm | hm
        · exact Or.inl (List.mem_cons_of_mem _ hm)
        · have hrp : r = p := (Option.some_inj.mp hm).symm
          exact Or.inl (by rw [hrp]; exact List.mem_cons_self _ _)
      · intro x hx
        rcases List.mem_cons.mp hx with hx | hx
        · rw [hx]; exact hacc p rfl
        · exact hminT x hx
    | some q₀ =>
      dsimp only at h
      by_cases hlt : p.2 < q₀.2
      · rw [if_pos hlt] at h
        obtain ⟨hmem, hminT, hacc⟩ := ih (some p) r h
        refine ⟨?_, ?_, ?_⟩
        · rcases hmem with hm | hm
          · exact Or.inl (List.mem_cons_of_mem _ hm)
          · have hrp : r = p := (Option.some_inj.mp hm).symm
            exact Or.inl (by rw [hrp]; exact List.mem_cons_self _ _)
        · intro x hx
          rcases List.mem_cons.mp hx with hx | hx
          · rw [hx]; exact hacc p rfl
          · exact hminT x hx
        · intro q hq
          have hqq : q₀ = q := Option.some_inj.mp hq
          rw [← hqq]
          exact le_of_lt (lt_of_le_of_lt (hacc p rfl) hlt)
      · rw [if_neg hlt] at h
        obtain ⟨hmem, hminT, hacc⟩ := ih (some q₀) r h
        refine ⟨?_, ?_, ?_⟩
        · rcases hmem with hm | hm
          · exact Or.inl (List.mem_cons_of_mem _ hm)
          · exact Or.inr hm
        · intro x hx
          rcases List.mem_cons.mp hx with hx | hx
          · rw [hx]; exact le_trans (hacc q₀ rfl) (not_lt.mp hlt)
          · exact hminT x hx
        · intro q hq
          have hqq : q₀ = q := Option.some_inj.mp hq
          rw [← hqq]
          exact hacc q₀ rfl

theorem oldestDead_foldl_some (l : List (Nat × ℚ)) :
    ∀ q : Nat × ℚ, ∃ r, l.foldl (fun best p =>
      match best with
      | none => some p
      | some q => if p.2 < q.2 then some p else best) (some q) = some r := by
  induction l with
  | nil => exact fun q => ⟨q, rfl⟩
  | cons p t ih =>
    intro q
    rw [List.foldl_cons]
    dsimp only
    split_ifs with h
    · exact ih p
    · exact ih q

theorem oldestDeadCar_min (l : List (Nat × ℚ)) (hne : l ≠ []) :
    ∃ cid t, oldestDeadCar l = some cid ∧ (cid, t) ∈ l ∧ ∀ p ∈ l, t ≤ p.2 := by
  cases l with
  | nil => exact absurd rfl hne
  | cons p t =>
    have hstep : (p :: t).foldl (fun best p =>
        match best with
        | none => some p
        | some q => if p.2 < q.2 then some p else best) none =
      t.foldl (fun best p =>
        match best with
        | none => some p
        | some q => if p.2 < q.2 then some p else best) (some p) := by
      rw [List.foldl_cons]
    obtain ⟨r, hr⟩ := oldestDead_foldl_some t p
    have hfold := hstep.trans hr
    obtain ⟨hmem, hmin, -⟩ := oldestDead_foldl_spec (p :: t) none r hfold
    refine ⟨r.1, r.2, ?_, ?_, hmin⟩
    · unfold oldestDeadCar
      rw [hfold]
      rfl
    · rcases hmem with hm | hm
      · simpa using hm
      · cases hm

theorem spawnCar_fail_frame (b : Board) (strat : Strategy) (seed : CarSeed)
    (draws : List (ℕ × ℕ)) (now : ℚ)
    (hfail : (spawnCar b strat seed draws now).1 = false) :
    (spawnCar b strat seed draws now).2 = b := by
  revert hfail
  unfold spawnCar
  cases (draws.take 100).find? (fun rc =>
      !isOccupied b.occupiedCells
        (getHexKey (gridPointOf b.hexSize rc.1 rc.2).1 (gridPointOf b.hexSize rc.1 rc.2).2)) with
  | some rc => intro hfail; cases hfail
  | none =>
    dsimp only
    cases (scanCells b).find? (fun g => !isOccupied b.occupiedCells (getHexKey g.1 g.2)) with
    | some g => intro hfail; cases hfail
    | none => intro _; rfl

/-- **C8** (spawn exhaustion and eviction).  (1) A failed `spawnCar` leaves
the state unchanged.  (2) `spawnCar` fails exactly when every one of the up
to 100 random draws lands on an occupied key *and* every in-bounds lattice
cell of the exhaustive row/column scan is occupied.  (3) When the random
draws are exhausted but the scan finds a free cell, the spawn commits at the
*first* free cell of the scan order.  (4) In infinite-lifetime mode, when
the spawn fails and dead agents exist, the whole step evicts (via
`removeCarTraces`) a dead agent whose death time is minimal among all dead
agents, then retries the spawn exactly once. -/
theorem spawn_exhaustion_and_eviction :
    (∀ (b : Board) (strat : Strategy) (seed : CarSeed) (draws : List (ℕ × ℕ)) (now : ℚ),
      (spawnCar b strat seed draws now).1 = false →
      (spawnCar b strat seed draws now).2 = b) ∧
    (∀ (b : Board) (strat : Strategy) (seed : CarSeed) (draws : List (ℕ × ℕ)) (now : ℚ),
      (spawnCar b strat seed draws now).1 = false ↔
      (∀ rc ∈ draws.take 100, isOccupied b.occupiedCells
          (getHexKey (gridPointOf b.hexSize rc.1 rc.2).1
            (gridPointOf b.hexSize rc.1 rc.2).2) = true) ∧
      (∀ g ∈ scanCells b, isOccupied b.occupiedCells (getHexKey g.1 g.2) = true)) ∧
    (∀ (b : Board) (strat : Strategy) (seed : CarSeed) (draws : List (ℕ × ℕ)) (now : ℚ)
      (g : ℚ × ℚ),
      (∀ rc ∈ draws.take 100, isOccupied b.occupiedCells
          (getHexKey (gridPointOf b.hexSize rc.1 rc.2).1
            (gridPointOf b.hexSize rc.1 rc.2).2) = true) →
      (scanCells b).find? (fun g => !isOccupied b.occupiedCells (getHexKey g.1 g.2)) = some g →
      spawnCar b strat seed draws now = (true, placeCar b strat seed now g.1 g.2)) ∧
    (∀ (b : Board) (s₁ : Strategy) (c₁ : CarSeed) (d₁ : List (ℕ × ℕ))
      (s₂ : Strategy) (c₂ : CarSeed) (d₂ : List (ℕ × ℕ)) (now : ℚ),
      b.infiniteLifetime = true →
      (spawnCar b s₁ c₁ d₁ now).1 = false →
      b.deadCarIds ≠ [] →
      ∃ cid t, oldestDeadCar b.deadCarIds = some cid ∧ (cid, t) ∈ b.deadCarIds ∧
        (∀ p ∈ b.deadCarIds, t ≤ p.2) ∧
        spawnEvictStep b s₁ c₁ d₁ s₂ c₂ d₂ now =
          { (spawnCar (removeCarTraces b cid) s₂ c₂ d₂ now).2 with lastSpawnTime := now }) := by
  refine ⟨spawnCar_fail_frame, ?_, ?_, ?_⟩
  · intro b strat seed draws now
    unfold spawnCar
    cases hf : (draws.take 100).find? (fun rc =>
        !isOccupied b.occupiedCells
          (getHexKey (gridPointOf b.hexSize rc.1 rc.2).1 (gridPointOf b.hexSize rc.1 rc.2).2)) with
    | some rc =>
      have hp := List.find?_some hf
      simp only [Bool.not_eq_true'] at hp
      have hmem := List.mem_of_find?_eq_some hf
      constructor
      · intro hno
        exact absurd hno (by simp)
      · intro hall
        exact absurd (hall.1 rc hmem) (by rw [hp]; simp)
    | none =>
      dsimp only
      rw [List.find?_eq_none] at hf
      cases hg : (scanCells b).find? (fun g => !isOccupied b.occupiedCells (getHexKey g.1 g.2)) with
      | some g =>
        have hp := List.find?_some hg
        simp only [Bool.not_eq_true'] at hp
        have hmem := List.mem_of_find?_eq_some hg
        constructor
        · intro hno
          exact absurd hno (by simp)
        · intro hall
          exact absurd (hall.2 g hmem) (by rw [hp]; simp)
      | none =>
        rw [List.find?_eq_none] at hg
        simp only [true_iff]
        constructor
        · intro rc hrc
          have := hf rc hrc
          simpa using this
        · intro g hgm
          have := hg g hgm
          simpa using this
  · intro b strat seed draws now g hall hfind
    unfold spawnCar
    have hnone : (draws.take 100).find? (fun rc =>
        !isOccupied b.occupiedCells
          (getHexKey (gridPointOf b.hexSize rc.1 rc.2).1 (gridPointOf b.hexSize rc.1 rc.2).2)) =
        none := by
      rw [List.find?_eq_none]
      intro rc hrc
      simp [hall rc hrc]
    rw [hnone, hfind]
  · intro b s₁ c₁ d₁ s₂ c₂ d₂ now hinf hfail hdead
    obtain ⟨cid, t, hold, hmem, hmin⟩ := oldestDeadCar_min b.deadCarIds hdead
    refine ⟨cid, t, hold, hmem, hmin, ?_⟩
    unfold spawnEvictStep
    dsimp only
    have hframe := spawnCar_fail_frame b s₁ c₁ d₁ now hfail
    rw [hfail, hframe]
    have hcond : (b.infiniteLifetime && !false && decide (0 < b.deadCarIds.length)) = true := by
      rw [hinf]
      simp [List.length_pos, hdead]
    rw [if_pos hcond, hold]

/-- A one-cell board (canvas 100×80, so the scan holds exactly one lattice
point) whose single cell is occupied, in infinite-lifetime mode, with one
dead agent on record. -/
def fullBoardC8 : Board :=
  { canvasWidth := 100
    canvasHeight := 80
    occupiedCells := [((0, 0), 1)]
    cellTimestamps := [((0, 0), 0)]
    cellOwners := [((0, 0), 1)]
    allLines := [segDead1]
    infiniteLifetime := true
    deadCarIds := [(1, 0)] }

theorem spawn_exhaustion_and_eviction_witness :
    (fullBoardC8.infiniteLifetime = true ∧
     (spawnCar fullBoardC8 .wallFollower {} [] 0).1 = false ∧
     fullBoardC8.deadCarIds ≠ []) ∧
    (∃ cid t, oldestDeadCar fullBoardC8.deadCarIds = some cid ∧
      (cid, t) ∈ fullBoardC8.deadCarIds ∧
      (∀ p ∈ fullBoardC8.deadCarIds, t ≤ p.2) ∧
      spawnEvictStep fullBoardC8 .wallFollower {} [] .wallFollower {} [] 0 =
        { (spawnCar (removeCarTraces fullBoardC8 cid) .wallFollower {} [] 0).2 with
            lastSpawnTime := 0 }) := by
  have h1 : fullBoardC8.infiniteLifetime = true := rfl
  have hscan : scanCells fullBoardC8 = [(0, 0)] := by
    rw [scanCells]
    rw [show fullBoardC8.canvasHeight = 80 from rfl, show fullBoardC8.canvasWidth = 100 from rfl,
      show fullBoardC8.hexSize = 100 from rfl]
    rw [show (⌈(80 : ℚ) / rowHeightOf 100⌉).toNat = 1 from by
        rw [show (⌈(80 : ℚ) / rowHeightOf 100⌉) = 1 from by
          rw [Int.ceil_eq_iff]
          norm_num [rowHeightOf]]
        rfl,
      show (⌈(100 : ℚ) / 100⌉).toNat = 1 from by norm_num]
    rw [show List.range 1 = [0] from by decide]
    norm_num [gridPointOf, rowHeightOf, List.flatMap_cons,
      List.flatMap_nil, List.filterMap_cons, List.filterMap_nil, Prod.ext_iff]
  have h2 : (spawnCar fullBoardC8 .wallFollower {} [] 0).1 = false := by
    rw [spawnCar]
    simp only [List.take_nil, List.find?_nil]
    rw [hscan]
    norm_num [isOccupied, alookup, getHexKey, jsRound, fullBoardC8, Prod.ext_iff,
      List.find?]
    rfl
  have h3 : fullBoardC8.deadCarIds ≠ [] := by norm_num [fullBoardC8]
  exact ⟨⟨h1, h2, h3⟩,
    spawn_exhaustion_and_eviction.2.2.2 fullBoardC8 .wallFollower {} [] .wallFollower {} [] 0
      h1 h2 h3⟩

end NeonGrowth
